import Mathlib

/-!
Verification of the GuardianOps risk-assessment engine
(`backend/tools.py`, `backend/main.py`, `backend/config.py`).

The embedding models, close to the Python source:
* service-name normalization (`_normalize_service_name`), with the external
  fuzzy scorer (`thefuzz.process.extractOne` / `WRatio`) as an explicit
  function parameter of the context, and the selection logic of `extractOne`
  (filter by cutoff, maximum score, first occurrence wins on ties) spelled
  out;
* the downstream dependency analysis (`analyze_service_dependencies` with
  its inner recursive `find_downstream`), via fuel-indexed recursion with a
  proven stabilization theorem;
* the business-impact calendar evaluation (`assess_business_impact`),
  including the `"%b %d"` date round-trip used for the timeline merge
  (which places every entry in year 1900 and raises `ValueError` on a
  Feb 29 entry);
* the score aggregation from `main.py` / `config.py`, over `ℚ`
  (Python floats are modelled as exact rationals).
-/

namespace GuardianOps

/-! ## Dates and times (model of the needed fragment of `datetime`) -/

/-- A `datetime.datetime` value (naive, second precision: the code only
produces/compares such values). -/
structure DateTime where
  year : Nat
  month : Nat
  day : Nat
  hour : Nat
  minute : Nat
  second : Nat
deriving DecidableEq, Repr

/-- Fields are a real calendar date/time (as `datetime` guarantees). -/
def DateTime.Valid (t : DateTime) : Prop :=
  1 ≤ t.year ∧ 1 ≤ t.month ∧ t.month ≤ 12 ∧ 1 ≤ t.day ∧
  t.day ≤ (if t.month = 2 then (if (t.year % 4 = 0 ∧ t.year % 100 ≠ 0) ∨ t.year % 400 = 0 then 29 else 28)
           else if t.month = 4 ∨ t.month = 6 ∨ t.month = 9 ∨ t.month = 11 then 30 else 31) ∧
  t.hour ≤ 23 ∧ t.minute ≤ 59 ∧ t.second ≤ 59

instance (t : DateTime) : Decidable t.Valid := by unfold DateTime.Valid; infer_instance

def isLeap (y : Nat) : Bool :=
  (y % 4 == 0 && y % 100 != 0) || y % 400 == 0

def daysInMonth (y m : Nat) : Nat :=
  if m = 2 then (if isLeap y then 29 else 28)
  else if m = 4 ∨ m = 6 ∨ m = 9 ∨ m = 11 then 30 else 31

/-- Lexicographic comparison of datetimes (this is how `datetime` compares). -/
def DateTime.le (a b : DateTime) : Bool :=
  (a.year, a.month, a.day, a.hour, a.minute, a.second) ≤
    (b.year, b.month, b.day, b.hour, b.minute, b.second)

/-- `t + timedelta(days=1)` on the date part (time of day unchanged). -/
def DateTime.addOneDay (t : DateTime) : DateTime :=
  if t.day < daysInMonth t.year t.month then { t with day := t.day + 1 }
  else if t.month < 12 then { t with month := t.month + 1, day := 1 }
  else { t with year := t.year + 1, month := 1, day := 1 }

/-- `t - timedelta(days=1)` on the date part (time of day unchanged). -/
def DateTime.subOneDay (t : DateTime) : DateTime :=
  if 1 < t.day then { t with day := t.day - 1 }
  else if 1 < t.month then { t with month := t.month - 1, day := daysInMonth t.year (t.month - 1) }
  else { t with year := t.year - 1, month := 12, day := 31 }

/-- `t - timedelta(seconds=1)`. -/
def DateTime.subOneSecond (t : DateTime) : DateTime :=
  if 0 < t.second then { t with second := t.second - 1 }
  else if 0 < t.minute then { t with minute := t.minute - 1, second := 59 }
  else if 0 < t.hour then { t with hour := t.hour - 1, minute := 59, second := 59 }
  else { t.subOneDay with hour := 23, minute := 59, second := 59 }

/-- `datetime.isoweekday()`: Monday = 1 … Sunday = 7 (days-from-civil
formula, reduced mod 7). -/
def DateTime.isoweekday (t : DateTime) : Nat :=
  let y := if t.month ≤ 2 then t.year - 1 else t.year
  let era := y / 400
  let yoe := y % 400
  let mp := if t.month ≤ 2 then t.month + 9 else t.month - 3
  let doy := (153 * mp + 2) / 5 + t.day - 1
  let doe := yoe * 365 + yoe / 4 - yoe / 100 + doy
  ((era * 146097 + doe + 2) % 7) + 1

/-- The month/day pair rendered by `strftime("%b %d")` (the timeline never
keeps the year). -/
structure MD where
  month : Nat
  day : Nat
deriving DecidableEq, Repr

def DateTime.md (t : DateTime) : MD := ⟨t.month, t.day⟩

/-- Whether `strptime(s, "%b %d")` succeeds: the month/day must exist in the
default year 1900 (so `"Feb 29"` raises `ValueError`). -/
def MD.valid1900 (d : MD) : Bool :=
  1 ≤ d.month && d.month ≤ 12 && 1 ≤ d.day && d.day ≤ daysInMonth 1900 d.month

/-- Strict ordering of the `strptime`-parsed timeline dates (all live in
year 1900, so only month/day compare). -/
def MD.lt (a b : MD) : Bool :=
  a.month < b.month || (a.month == b.month && a.day < b.day)

/-! ## `datetime.fromisoformat` (the fragment the dataset and API use:
`YYYY-MM-DD`, optionally followed by `T` or a space and `HH:MM[:SS]`). -/

def parseDigits : Nat → List Char → Option (Nat × List Char)
  | 0, cs => some (0, cs)
  | n + 1, c :: cs =>
      if c.isDigit then
        match parseDigits n cs with
        | some (v, rest) => some ((c.toNat - 48) * 10 ^ n + v, rest)
        | none => none
      else none
  | _ + 1, [] => none

def parseSep (c : Char) : List Char → Option (List Char)
  | c' :: cs => if c' = c then some cs else none
  | [] => none

def parseTimePart (y m d : Nat) : List Char → Option DateTime
  | [] => some ⟨y, m, d, 0, 0, 0⟩
  | c :: cs =>
      if c = 'T' ∨ c = ' ' then
        match parseDigits 2 cs with
        | none => none
        | some (hh, cs) =>
          match parseSep ':' cs with
          | none => none
          | some cs =>
            match parseDigits 2 cs with
            | none => none
            | some (mi, cs) =>
              match cs with
              | [] => if hh ≤ 23 ∧ mi ≤ 59 then some ⟨y, m, d, hh, mi, 0⟩ else none
              | _ =>
                match parseSep ':' cs with
                | none => none
                | some cs =>
                  match parseDigits 2 cs with
                  | some (ss, []) =>
                      if hh ≤ 23 ∧ mi ≤ 59 ∧ ss ≤ 59 then some ⟨y, m, d, hh, mi, ss⟩ else none
                  | _ => none
      else none

/-- `datetime.fromisoformat`: `none` models a raised `ValueError`. -/
def fromisoformat (s : String) : Option DateTime :=
  match parseDigits 4 s.toList with
  | none => none
  | some (y, cs) =>
    match parseSep '-' cs with
    | none => none
    | some cs =>
      match parseDigits 2 cs with
      | none => none
      | some (m, cs) =>
        match parseSep '-' cs with
        | none => none
        | some cs =>
          match parseDigits 2 cs with
          | none => none
          | some (d, cs) =>
            if 1 ≤ y ∧ 1 ≤ m ∧ m ≤ 12 ∧ 1 ≤ d ∧ d ≤ daysInMonth y m then
              parseTimePart y m d cs
            else none

/-! ## Engine data (`initialize_tools_data` inputs)

`serviceDeps` models the serviceDependencies list of `_GUARDIANOPS_DATASET`,
`graph` models `_SERVICE_DEPENDENCIES_GRAPH` (an insertion-ordered dict),
`aliases` models `_SERVICE_ALIASES`, `businessEvents` models
the businessEvents list of `_GUARDIANOPS_DATASET` (with its date strings already
parsed to `DateTime`s — the dataset ships well-formed ISO dates).

`score` is the external fuzzy scorer `thefuzz` applies inside
`process.extractOne` (default `WRatio` composed with `full_process`): it is
library code outside this repository, kept as an explicit parameter. -/

structure ServiceInfo where
  serviceName : String
  consumedBy : List String
deriving DecidableEq, Repr

structure BEvent where
  eventName : String
  startDate : DateTime
  endDate : DateTime
  impactedSystems : List String
  criticality : String
  blackoutWindow : Bool
deriving DecidableEq, Repr

structure Ctx where
  score : String → String → Nat
  aliases : List (String × String)
  graph : List (String × List String)
  serviceDeps : List ServiceInfo
  businessEvents : List BEvent

/-- ASCII lowercasing of one character (the service names in play are
ASCII). -/
def asciiLower (c : Char) : Char :=
  if 65 ≤ c.toNat ∧ c.toNat ≤ 90 then Char.ofNat (c.toNat + 32) else c

/-- `str.lower()`. -/
def pyLower (s : String) : String := ⟨s.data.map asciiLower⟩

def isPySpace (c : Char) : Bool := c = ' ' ∨ c = '\t' ∨ c = '\n' ∨ c = '\r'

/-- `str.strip()`: drop whitespace from both ends. -/
def pyStrip (s : String) : String :=
  ⟨((s.data.dropWhile isPySpace).reverse.dropWhile isPySpace).reverse⟩

/-- The `name.lower().strip()` composition used on alias lookups. -/
def lowerStrip (s : String) : String := pyStrip (pyLower s)

/-- First-match association lookup (Python dict access; dict keys are
unique, so first match is the match). -/
def alookup (l : List (String × α)) (k : String) : Option α :=
  match l.find? (fun p => p.1 = k) with
  | some p => some p.2
  | none => none

/-- `max(pairs, key=snd)` starting from `acc`: the Python `max` keeps the
first element attaining the maximum, so later elements replace `acc` only
on a strictly greater score. -/
def maxBySecond (acc : String × Nat) : List (String × Nat) → String × Nat
  | [] => acc
  | p :: rest => maxBySecond (if p.2 > acc.2 then p else acc) rest

/-- `thefuzz.process.extractOne(query, choices, score_cutoff=cutoff)`:
score every choice, keep those meeting the cutoff, return the first
highest-scoring one (`None` if nothing meets the cutoff). -/
def extractOne (score : String → String → Nat) (query : String)
    (choices : List String) (cutoff : Nat) : Option String :=
  let best := (choices.map (fun c => (c, score query c))).filter (fun p => cutoff ≤ p.2)
  match best with
  | [] => none
  | p :: rest => some (maxBySecond p rest).1

/-- `_normalize_service_name` from `backend/tools.py`. -/
def normalizeServiceName (ctx : Ctx) (name : String) : String :=
  if name = "" then name
  else
    let aliased := (alookup ctx.aliases (lowerStrip name)).getD name
    let known := ctx.graph.map Prod.fst
    match extractOne ctx.score aliased known 85 with
    | some best => best
    | none => aliased

/-! ## `analyze_service_dependencies`

The Python `find_downstream` mutates a shared `impacted_dependencies` set;
here the set is threaded explicitly as a duplicate-free list (in insertion
order — only membership and the final sorted rendering matter).  The
unbounded Python recursion is given explicit fuel; `findDownstream_fuel`
below proves any fuel past `(edgeUniverse ctx).length` gives the same
answer, which is the termination argument of claim C7. -/

/-- The reverse ("consumed-by") scan at the end of each `find_downstream`
call: for each dataset service whose normalized `consumedBy` list contains
the current node, add its normalized name unless already impacted or a
target. -/
def revScan (ctx : Ctx) (tset : List String) (ns : String) :
    List ServiceInfo → List String → List String
  | [], imp => imp
  | si :: rest, imp =>
    let cur := normalizeServiceName ctx si.serviceName
    let consumedBy := si.consumedBy.map (normalizeServiceName ctx)
    if ns ∈ consumedBy ∧ cur ∉ imp ∧ cur ∉ tset then
      revScan ctx tset ns rest (imp ++ [cur])
    else
      revScan ctx tset ns rest imp

/-- The `for dep in _SERVICE_DEPENDENCIES_GRAPH[normalized_system]` loop:
add each fresh normalized dependency and recurse into it (`rec` is the
recursive `find_downstream` call, `nrm` the normalizer). -/
def goDeps (rec : String → List String → List String) (nrm : String → String)
    (tset : List String) : List String → List String → List String
  | [], imp => imp
  | dep :: rest, imp =>
    let nd := nrm dep
    if nd ∉ imp ∧ nd ∉ tset then
      goDeps rec nrm tset rest (rec nd (imp ++ [nd]))
    else
      goDeps rec nrm tset rest imp

/-- `find_downstream(system_name)` with the impacted set `imp` threaded and
explicit fuel (the Python recursion is unbounded but always terminates;
see `findDownstream_fuel`). -/
def findDownstream (ctx : Ctx) (tset : List String) :
    Nat → String → List String → List String
  | 0, _, imp => imp
  | fuel + 1, systemName, imp =>
    let ns := normalizeServiceName ctx systemName
    match alookup ctx.graph ns with
    | none => imp
    | some deps =>
      revScan ctx tset ns ctx.serviceDeps
        (goDeps (findDownstream ctx tset fuel) (normalizeServiceName ctx) tset deps imp)

/-- All normalized forward-edge targets: the recursion of
`find_downstream` only ever descends into members of this list. -/
def edgeUniverse (ctx : Ctx) : List String :=
  ((ctx.graph.map Prod.snd).flatten.map (normalizeServiceName ctx)).dedup

/-- Python string comparison: lexicographic by Unicode code point. -/
def strLtb : List Char → List Char → Bool
  | [], [] => false
  | [], _ :: _ => true
  | _ :: _, [] => false
  | a :: as, b :: bs =>
    if a.toNat < b.toNat then true
    else if b.toNat < a.toNat then false
    else strLtb as bs

def pyStrLt (a b : String) : Bool := strLtb a.toList b.toList

/-- Stable ascending insertion into a sorted list of strings. -/
def insertStr (x : String) : List String → List String
  | [] => [x]
  | y :: ys => if pyStrLt x y then x :: y :: ys else y :: insertStr x ys

/-- Python `sorted` on strings (lexicographic ascending). -/
def sortStrings (l : List String) : List String := l.foldl (fun acc x => insertStr x acc) []

structure DepResult where
  target_systems_analyzed : List String
  impacted_dependencies : List String
  dependency_summary : String
  all_involved_services : List String
deriving DecidableEq, Repr

/-- `analyze_service_dependencies(target_systems)` with fuel `fuel` for the
inner recursion. -/
def analyzeServiceDependenciesFuel (ctx : Ctx) (target_systems : List String)
    (fuel : Nat) : DepResult :=
  let normalized := (target_systems.filter (fun s => s ≠ "")).map (normalizeServiceName ctx)
  let impacted := normalized.foldl (fun imp s => findDownstream ctx normalized fuel s imp) []
  let finalImpacted := sortStrings (impacted.filter (fun s => s ∉ normalized))
  let summary :=
    if finalImpacted = [] then "No significant additional downstream dependencies detected."
    else "Change impacts " ++ toString finalImpacted.length ++
      " additional downstream services beyond targeted systems."
  { target_systems_analyzed := sortStrings normalized.dedup
    impacted_dependencies := finalImpacted
    dependency_summary := summary
    all_involved_services := sortStrings (normalized ++ impacted).dedup }

/-- `analyze_service_dependencies`: the fuel `(edgeUniverse ctx).length + 1`
is enough for the recursion to run to completion (`findDownstream_fuel`). -/
def analyzeServiceDependencies (ctx : Ctx) (target_systems : List String) : DepResult :=
  analyzeServiceDependenciesFuel ctx target_systems ((edgeUniverse ctx).length + 1)

/-! ## `assess_business_impact` -/

/-- Model of the Python `sub in s` test on strings: substring containment. -/
def pyInStr (sub s : String) : Bool := decide (sub.toList <:+: s.toList)

/-- An impact event / timeline entry: `{"date": …, "event": …, "level": …}`
(the date is the `"%b %d"`-rendered month/day). -/
structure TEntry where
  date : MD
  event : String
  level : String
deriving DecidableEq, Repr

/-- A raised Python exception escaping `assess_business_impact`
(`ValueError` from `fromisoformat` or from `strptime` during the final
timeline sort). -/
inductive PyError
  | valueError
deriving DecidableEq, Repr

/-- The inclusive event window check
`event_start_dt <= proposed_dt <= event_end_dt` where
`event_end_dt = fromisoformat(endDate) + timedelta(days=1, seconds=-1)`. -/
def inEventWindow (e : BEvent) (t : DateTime) : Bool :=
  DateTime.le e.startDate t && DateTime.le t (e.endDate.addOneDay.subOneSecond)

/-- The per-event service match: the `"all-systems"` wildcard, or some
normalized involved service equal (case-insensitively) to some normalized
impacted system. -/
def eventMatches (ctx : Ctx) (normInvolved : List String) (e : BEvent) : Bool :=
  e.impactedSystems.contains "all-systems" ||
  normInvolved.any (fun svc =>
    (e.impactedSystems.map (fun s => pyLower (normalizeServiceName ctx s))).contains (pyLower svc))

/-- Criticality contribution: Critical +5, High +3, Medium +1, else +0. -/
def critScore (level : String) : Int :=
  if level = "Critical" then 5 else if level = "High" then 3
  else if level = "Medium" then 1 else 0

/-- Full risk contribution of one matching event (criticality plus the +2
blackout-window surcharge). -/
def eventContribution (e : BEvent) : Int :=
  critScore e.criticality + (if e.blackoutWindow then 2 else 0)

/-- The `for event_data in businessEvents` loop: collect matching
in-window events and accumulate the risk score. -/
def eventLoop (ctx : Ctx) (t : DateTime) (normInvolved : List String) :
    List BEvent → List TEntry × Int → List TEntry × Int
  | [], acc => acc
  | e :: rest, (evts, s) =>
    if inEventWindow e t && eventMatches ctx normInvolved e then
      eventLoop ctx t normInvolved rest
        (evts ++ [⟨t.md, e.eventName, e.criticality⟩], s + eventContribution e)
    else
      eventLoop ctx t normInvolved rest (evts, s)

/-- `proposed_dt.isoweekday() <= 5 and proposed_dt.hour >= 9 and
proposed_dt.hour <= 17`. -/
def isWeekdayBusinessHours (t : DateTime) : Bool :=
  t.isoweekday ≤ 5 && 9 ≤ t.hour && t.hour ≤ 17

def alreadyBusinessHoursNames : List String :=
  ["Peak Hours", "Monthly Payroll Processing", "Black Friday Sale Preparation"]

/-- The weekday/business-hours adjustment: +1 risk and a synthetic
`"Peak Hours"` impact event, unless one of the fixed event names is
already recorded. -/
def businessHoursAdjust (t : DateTime) (p : List TEntry × Int) : List TEntry × Int :=
  if isWeekdayBusinessHours t ∧ ¬ p.1.any (fun e => alreadyBusinessHoursNames.contains e.event) then
    (p.1 ++ [⟨t.md, "Peak Hours", "Peak"⟩], p.2 + 1)
  else p

/-- The overall-level `if/elif` chain.  (The third branch of the source carries a
`business_impact_final_level not in ["High"]` guard over the not-yet-
reassigned variable, which is always true there; the final `elif`/`else`
both yield `"Low"`.) -/
def finalLevel (evts : List TEntry) : String :=
  if evts.any (fun e => e.level = "Critical") then "High"
  else if evts.any (fun e => e.level = "High") then "Medium"
  else if evts.any (fun e => e.level = "Medium") then "Medium"
  else "Low"

/-- Display level of the `"Proposed Change"` entry.  (`"High" in
business_impact_final_level` is Python substring containment.) -/
def proposedTimeLevel (final : String) (evts : List TEntry) : String :=
  if pyInStr "High" final || evts.any (fun e => e.level = "Critical") then "Conflict"
  else if pyInStr "Medium" final || evts.any (fun e => e.level = "Peak") then "Peak"
  else "Safe"

/-- The raw display timeline before merging.  Impact-event dicts never carry
a `startDate` key, so the `event_dt_str` recomputation in the source is
inert and the only filter is on the `"Proposed Change"` name. -/
def timelineDisplay (t : DateTime) (final : String) (evts : List TEntry) : List TEntry :=
  if evts = [] then
    [⟨t.subOneDay.md, "Safe Window", "Safe"⟩,
     ⟨t.md, "Proposed Change", "Safe"⟩,
     ⟨t.addOneDay.md, "Safe Window", "Safe"⟩]
  else
    ⟨t.md, "Proposed Change", proposedTimeLevel final evts⟩ ::
      evts.filter (fun e => ¬ e.event = "Proposed Change")

/-- `level_priority.get(level, 0)`. -/
def levelPriority (level : String) : Nat :=
  if level = "Critical" then 6 else if level = "High" then 5
  else if level = "Medium" then 4 else if level = "Peak" then 3
  else if level = "Conflict" then 2 else if level = "Safe" then 1
  else 0

/-- The dict key `datetime.strptime(item_date, "%b %d").date()` — year
1900 — falling back to `proposed_dt.date()` when `strptime` raises
(exactly for a Feb 29 entry). -/
def dateKey (t : DateTime) (item : TEntry) : Nat × Nat × Nat :=
  if item.date.valid1900 then (1900, item.date.month, item.date.day)
  else (t.year, t.month, t.day)

/-- Insert one display item into the `unique_timeline_items` dict (an
insertion-ordered association list): replace on strictly higher display
priority, extend the stored label on an exact tie (skipping labels already
contained as substrings), ignore otherwise. -/
def insertMerge (key : Nat × Nat × Nat) (item : TEntry) :
    List ((Nat × Nat × Nat) × TEntry) → List ((Nat × Nat × Nat) × TEntry)
  | [] => [(key, item)]
  | (k, e) :: rest =>
    if k = key then
      if levelPriority item.level > levelPriority e.level then (k, item) :: rest
      else if levelPriority item.level = levelPriority e.level then
        (if pyInStr item.event e.event then (k, e) :: rest
         else (k, { e with event := e.event ++ ", " ++ item.event }) :: rest)
      else (k, e) :: rest
    else (k, e) :: insertMerge key item rest

/-- The same-day merge pass: `unique_timeline_items` values in insertion
order. -/
def mergeTimeline (t : DateTime) (items : List TEntry) : List TEntry :=
  (items.foldl (fun acc item => insertMerge (dateKey t item) item acc) []).map Prod.snd

/-- Stable ascending insertion by the `strptime`-parsed (year-1900) date. -/
def insertByMD (x : TEntry) : List TEntry → List TEntry
  | [] => [x]
  | y :: ys => if MD.lt x.date y.date then x :: y :: ys else y :: insertByMD x ys

/-- Model of `sorted(values, key=strptime-of-the-date-field)`:
raises `ValueError` if any surviving entry is dated Feb 29 (invalid in
1900), else sorts by month/day. -/
def sortTimeline (items : List TEntry) : Except PyError (List TEntry) :=
  if items.any (fun it => ¬ it.date.valid1900) then .error .valueError
  else .ok (items.foldl (fun acc x => insertByMD x acc) [])

structure BizResult where
  business_impact_level : String
  overall_business_risk_score : Int
  business_impact_timeline : List TEntry
  business_summary : String
deriving DecidableEq, Repr

/-- `assess_business_impact` after the initial `fromisoformat` succeeded. -/
def assessBusinessImpactCore (ctx : Ctx) (proposed : DateTime)
    (all_involved_services : List String) : Except PyError BizResult :=
  let normInvolved := (all_involved_services.filter (fun s => s ≠ "")).map (normalizeServiceName ctx)
  let p := businessHoursAdjust proposed (eventLoop ctx proposed normInvolved ctx.businessEvents ([], 0))
  let final := finalLevel p.1
  match sortTimeline (mergeTimeline proposed (timelineDisplay proposed final p.1)) with
  | .error err => .error err
  | .ok timeline =>
    .ok { business_impact_level := final
          overall_business_risk_score := p.2
          business_impact_timeline := timeline
          business_summary := "Business impact level: " ++ final ++ ". Conflicts identified: " ++
            (if p.1 = [] then "None." else String.intercalate ", " (p.1.map (fun e => e.event))) }

/-- `assess_business_impact(proposed_datetime_str, all_involved_services)`:
the leading `datetime.fromisoformat(proposed_datetime_str)` raises a
`ValueError` (here: `Except.error`) on a malformed timestamp, with no
handler anywhere in the function. -/
def assessBusinessImpact (ctx : Ctx) (proposed_datetime_str : String)
    (all_involved_services : List String) : Except PyError BizResult :=
  match fromisoformat proposed_datetime_str with
  | none => .error .valueError
  | some dt => assessBusinessImpactCore ctx dt all_involved_services

/-! ## Risk aggregation (`backend/main.py` lines 419–435, `backend/config.py`)

Python float arithmetic is modelled as exact rational arithmetic. -/

/-- `config.RISK_WEIGHTS` (technical, dependency, business). -/
def RISK_WEIGHTS_technical : ℚ := 4/10
def RISK_WEIGHTS_dependency : ℚ := 3/10
def RISK_WEIGHTS_business : ℚ := 3/10

/-- `config.PRIORITY_ADJUSTMENTS` (a dict: `None` models a missing key). -/
def PRIORITY_ADJUSTMENTS (priority : String) : Option ℚ :=
  if priority = "High" then some (3/2)
  else if priority = "Critical" then some 3
  else none

/-- `config.MAX_CALCULATED_RISK`. -/
def MAX_CALCULATED_RISK : ℚ := 15

/-- The Python built-in `max` on two numbers (explicit, computable). -/
def pymax (a b : ℚ) : ℚ := if a < b then b else a

/-- The Python built-in `min` on two numbers (explicit, computable). -/
def pymin (a b : ℚ) : ℚ := if b < a then b else a

/-- Python `round(q, 1)` (round-half-to-even on the first decimal). -/
def pyRound1 (q : ℚ) : ℚ :=
  let x := q * 10
  let f := Int.floor x
  let n : ℤ :=
    if x - f < 1/2 then f
    else if x - f > 1/2 then f + 1
    else if f % 2 = 0 then f else f + 1
  (n : ℚ) / 10

/-- `calculated_risk_value` including the priority adjustment. -/
def calculatedRiskValue (technical dependencyCount business : ℚ) (priority : String) : ℚ :=
  let v := technical * RISK_WEIGHTS_technical + dependencyCount * RISK_WEIGHTS_dependency +
    business * RISK_WEIGHTS_business
  match PRIORITY_ADJUSTMENTS priority with
  | some adj => v + adj
  | none => v

/-- `normalized_risk = max(1.0, min(10.0, calculated / MAX * 10.0))`. -/
def normalizedRisk (technical dependencyCount business : ℚ) (priority : String) : ℚ :=
  pymax 1 (pymin 10 (calculatedRiskValue technical dependencyCount business priority / MAX_CALCULATED_RISK * 10))

/-- `credit_score = round(max(1.0, min(10.0, 10.0 - normalized_risk + 1.0)), 1)`. -/
def creditScore (technical dependencyCount business : ℚ) (priority : String) : ℚ :=
  pyRound1 (pymax 1 (pymin 10 (10 - normalizedRisk technical dependencyCount business priority + 1)))

/-- `risk_level = "HIGH" if credit <= 3.5 else "MEDIUM" if credit <= 7.0 else "LOW"`. -/
def riskLevelOf (credit : ℚ) : String :=
  if credit ≤ 7/2 then "HIGH" else if credit ≤ 7 then "MEDIUM" else "LOW"

structure AggResult where
  normalized : ℚ
  safety : ℚ
  level : String
deriving DecidableEq, Repr

/-- The aggregation pipeline of `assess_risk` (normalized score, safety
score, classification). -/
def aggregate (technical dependencyCount business : ℚ) (priority : String) : AggResult :=
  { normalized := normalizedRisk technical dependencyCount business priority
    safety := creditScore technical dependencyCount business priority
    level := riskLevelOf (creditScore technical dependencyCount business priority) }

/-- Modelled from the spec (§4.4), for comparison with `aggregate`:
`raw = 0.4·t + 0.3·d + 0.3·b` plus `1.5` for High / `3.0` for Critical;
`normalized = clamp(raw / 15 * 10, 1, 10)`;
`safety = round(clamp(10 - normalized + 1, 1, 10), 1)`;
HIGH if `safety ≤ 3.5`, MEDIUM if `safety ≤ 7`, else LOW. -/
def specAggregate (t d b : ℚ) (priority : String) : AggResult :=
  let clamp : ℚ → ℚ → ℚ → ℚ := fun lo hi x => pymax lo (pymin hi x)
  let raw := 4/10 * t + 3/10 * d + 3/10 * b +
    (if priority = "High" then 3/2 else if priority = "Critical" then 3 else 0)
  let normalized := clamp 1 10 (raw / 15 * 10)
  let safety := pyRound1 (clamp 1 10 (10 - normalized + 1))
  { normalized := normalized
    safety := safety
    level := if safety ≤ 7/2 then "HIGH" else if safety ≤ 7 then "MEDIUM" else "LOW" }

/-! ## Concrete instances used by the example claims

`eqScore` is a concrete stand-in for the external fuzzy scorer on datasets
whose names are pairwise dissimilar: exact matches score 100, anything else
scores 0 (below the 85 cutoff), which is how `WRatio` behaves on the names
appearing in these datasets. -/

def eqScore (a b : String) : Nat := if a = b then 100 else 0

/-- The C1 dataset exactly as the claim states it: the graph maps
auth-service to `["user-database"]`, and the service-metadata entry for
user-database has `consumedBy = ["billing-service"]`. -/
def ctxC1literal : Ctx :=
  { score := eqScore
    aliases := []
    graph := [("auth-service", ["user-database"]), ("user-database", [])]
    serviceDeps := [⟨"auth-service", []⟩, ⟨"user-database", ["billing-service"]⟩]
    businessEvents := [] }

/-- The amended C1 dataset: the metadata entry for billing-service has
`consumedBy = ["user-database"]` (its consumed-by set contains the node
user-database), which is what the one-hop reverse lookup scans for. -/
def ctxC1 : Ctx :=
  { score := eqScore
    aliases := []
    graph := [("auth-service", ["user-database"]), ("user-database", []), ("billing-service", [])]
    serviceDeps := [⟨"auth-service", []⟩, ⟨"user-database", []⟩, ⟨"billing-service", ["user-database"]⟩]
    businessEvents := [] }

/-- A context with no data at all (empty calendar and graph). -/
def ctxNoData : Ctx :=
  { score := eqScore, aliases := [], graph := [], serviceDeps := [], businessEvents := [] }

/-- A Critical, blackout, all-systems business event (Mar 7 – Mar 9 2025). -/
def freezeEvent : BEvent :=
  { eventName := "DB Freeze", startDate := ⟨2025, 3, 7, 0, 0, 0⟩, endDate := ⟨2025, 3, 9, 0, 0, 0⟩
    impactedSystems := ["all-systems"], criticality := "Critical", blackoutWindow := true }

def ctxC3 : Ctx := { ctxNoData with businessEvents := [freezeEvent] }

/-- A Medium all-systems event on Mar 5 2025. -/
def maintEvent : BEvent :=
  { eventName := "Maintenance", startDate := ⟨2025, 3, 5, 0, 0, 0⟩, endDate := ⟨2025, 3, 5, 0, 0, 0⟩
    impactedSystems := ["all-systems"], criticality := "Medium", blackoutWindow := false }

def ctxC6 : Ctx := { ctxNoData with businessEvents := [maintEvent] }

/-- Two Medium all-systems events on Mar 8 2025 whose second name is a
substring of the first. -/
def upgradeWindowEvent : BEvent :=
  { eventName := "Database Upgrade Window", startDate := ⟨2025, 3, 8, 0, 0, 0⟩, endDate := ⟨2025, 3, 8, 0, 0, 0⟩
    impactedSystems := ["all-systems"], criticality := "Medium", blackoutWindow := false }

def upgradeEvent : BEvent :=
  { eventName := "Upgrade", startDate := ⟨2025, 3, 8, 0, 0, 0⟩, endDate := ⟨2025, 3, 8, 0, 0, 0⟩
    impactedSystems := ["all-systems"], criticality := "Medium", blackoutWindow := false }

def ctxC10 : Ctx := { ctxNoData with businessEvents := [upgradeWindowEvent, upgradeEvent] }

/-- The alias table hard-coded in `backend/main.py`. -/
def mainAliases : List (String × String) :=
  [("database server", "Database Server"), ("api gateway", "API Gateway"),
   ("authservice", "auth-service"), ("paymentgateway", "payment-api"),
   ("user database", "user-database"), ("billing service", "billing-service"),
   ("checkout ui", "checkout-ui"), ("payment api", "payment-api"),
   ("auth service", "auth-service")]

/-- A directory whose canonical services are the alias targets of
`main.py`. -/
def ctxC9 : Ctx :=
  { score := eqScore, aliases := mainAliases
    graph := [("Database Server", []), ("API Gateway", []), ("auth-service", []),
              ("payment-api", []), ("user-database", []), ("billing-service", []), ("checkout-ui", [])]
    serviceDeps := [], businessEvents := [] }

/-- One service whose three forward edges name nothing in the directory. -/
def ctxC7 : Ctx :=
  { score := eqScore, aliases := [], graph := [("a", ["x", "y", "z"])]
    serviceDeps := [⟨"a", []⟩], businessEvents := [] }

/-- The count of edge-universe members not yet impacted: the termination
measure of `find_downstream`. -/
def mRem (ctx : Ctx) (imp : List String) : Nat :=
  ((edgeUniverse ctx).filter (fun u => ¬ u ∈ imp)).length

end GuardianOps

namespace GuardianOps

/-! ## Claim C1 -/

/-- C1 counterexample: on the dataset exactly as described by the claim
(user-database has `consumedBy = ["billing-service"]`), the analysis of
targets `["auth-service"]` returns impacted `["user-database"]` only —
count 1, not the claimed `["billing-service", "user-database"]` with
count 2 (billing-service is only added when scanning a node contained in
some consumed-by set, and no consumed-by set contains user-database
here). -/
theorem C1_counterexample :
    (analyzeServiceDependencies ctxC1literal ["auth-service"]).impacted_dependencies = ["user-database"] ∧
    ¬ ((analyzeServiceDependencies ctxC1literal ["auth-service"]).impacted_dependencies
        = ["billing-service", "user-database"] ∧
       (analyzeServiceDependencies ctxC1literal ["auth-service"]).impacted_dependencies.length = 2) := by
  exact ⟨by decide, by decide⟩

/-- C1 (amended): for the dataset in which the graph maps auth-service to
the single forward edge `["user-database"]` and the service-metadata entry
for billing-service has `consumedBy = ["user-database"]`, analysing
targets `["auth-service"]` returns
`impactedDownstream = ["billing-service", "user-database"]` (sorted) and a
dependency impact count of 2. -/
theorem C1_example :
    (analyzeServiceDependencies ctxC1 ["auth-service"]).impacted_dependencies
      = ["billing-service", "user-database"] ∧
    (analyzeServiceDependencies ctxC1 ["auth-service"]).impacted_dependencies.length = 2 := by
  exact ⟨by decide, by decide⟩

/-! ## Claim C2 -/

/-- C2: the aggregator computes exactly the spec formulas (weights 0.4,
0.3, 0.3; +1.5 for High, +3.0 for Critical; normalize by the 15.0 ceiling
and clamp to `[1, 10]`; safety is the rounded inverted clamp; HIGH iff
safety ≤ 3.5, MEDIUM iff ≤ 7.0, else LOW); `(0,0,0,"Medium")` yields
normalized 1.0, safety 10.0 and level LOW; any inputs with raw ≥ 15.0
yield normalized 10.0, safety 1.0 and level HIGH. -/
theorem C2_aggregate (t d b : ℚ) (p : String) :
    aggregate t d b p = specAggregate t d b p ∧
    aggregate 0 0 0 "Medium" = ⟨1, 10, "LOW"⟩ ∧
    (15 ≤ calculatedRiskValue t d b p → aggregate t d b p = ⟨10, 1, "HIGH"⟩) := by
  have hraw : ∀ (t d b : ℚ) (p : String), calculatedRiskValue t d b p =
      4/10 * t + 3/10 * d + 3/10 * b +
        (if p = "High" then 3/2 else if p = "Critical" then 3 else 0) := by
    intro t d b p
    unfold calculatedRiskValue PRIORITY_ADJUSTMENTS RISK_WEIGHTS_technical
      RISK_WEIGHTS_dependency RISK_WEIGHTS_business
    split_ifs <;> simp <;> ring
  refine ⟨?_, ?_, ?_⟩
  · simp only [aggregate, specAggregate, normalizedRisk, creditScore, riskLevelOf,
      MAX_CALCULATED_RISK, hraw]
  · have h0 : calculatedRiskValue 0 0 0 "Medium" = 0 := by
      rw [hraw, if_neg (by decide : ¬ ("Medium" = "High")),
        if_neg (by decide : ¬ ("Medium" = "Critical"))]
      norm_num
    have h1 : normalizedRisk 0 0 0 "Medium" = 1 := by
      rw [normalizedRisk, h0, MAX_CALCULATED_RISK]; norm_num [pymax, pymin]
    have h2 : creditScore 0 0 0 "Medium" = 10 := by
      rw [creditScore, h1]; norm_num [pymax, pymin, pyRound1]
    simp [aggregate, h1, h2, riskLevelOf]; norm_num
  · intro h
    have hge : (10 : ℚ) ≤ calculatedRiskValue t d b p / 15 * 10 := by
      rw [div_mul_eq_mul_div, le_div_iff₀ (by norm_num : (0:ℚ) < 15)]; linarith
    have hnorm : normalizedRisk t d b p = 10 := by
      rw [normalizedRisk, MAX_CALCULATED_RISK, pymin, if_neg (not_lt.mpr hge), pymax,
        if_pos (by norm_num : (1:ℚ) < 10)]
    have hcredit : creditScore t d b p = 1 := by
      rw [creditScore, hnorm]; norm_num [pymin, pymax, pyRound1]
    simp [aggregate, hnorm, hcredit, riskLevelOf]; norm_num

/-- C2 witness: `t = 40` with zero dependency and business scores and a
Medium priority has raw score 16 ≥ 15 and saturates at normalized 10,
safety 1, level HIGH. -/
theorem C2_aggregate_witness :
    (15 : ℚ) ≤ calculatedRiskValue 40 0 0 "Medium" ∧
    aggregate 40 0 0 "Medium" = ⟨10, 1, "HIGH"⟩ := by
  have h : (15 : ℚ) ≤ calculatedRiskValue 40 0 0 "Medium" := by
    unfold calculatedRiskValue PRIORITY_ADJUSTMENTS RISK_WEIGHTS_technical
      RISK_WEIGHTS_dependency RISK_WEIGHTS_business
    rw [if_neg (by decide : ¬ ("Medium" = "High")),
      if_neg (by decide : ¬ ("Medium" = "Critical"))]
    norm_num
  exact ⟨h, (C2_aggregate 40 0 0 "Medium").2.2 h⟩

/-! ## Claim C8 -/

/-- C8: a proposed date/time string that fails to parse makes
`assess_business_impact` raise the parse error to its caller — the call
yields an error, never a result, and nothing in the function recovers
it. -/
theorem C8_malformed_timestamp (ctx : Ctx) (s : String) (svcs : List String)
    (h : fromisoformat s = none) :
    assessBusinessImpact ctx s svcs = .error .valueError := by
  unfold assessBusinessImpact
  rw [h]

/-- C8 witness: the string `"not-a-timestamp"` does not parse and the call
errors out. -/
theorem C8_malformed_timestamp_witness :
    fromisoformat "not-a-timestamp" = none ∧
    assessBusinessImpact ctxNoData "not-a-timestamp" [] = .error .valueError :=
  ⟨by decide, C8_malformed_timestamp ctxNoData "not-a-timestamp" [] (by decide)⟩

/-! ## Claim C9 -/

/-- If every pair is either `(name, 100)` or scores below 100, the
first-maximal selection of `max` lands on `(name, 100)`. -/
lemma maxBySecond_name (name : String) :
    ∀ (pairs : List (String × Nat)) (acc : String × Nat),
      (∀ q ∈ pairs, (q.1 = name ∧ q.2 = 100) ∨ q.2 < 100) →
      (acc = (name, 100) ∨ (acc.2 < 100 ∧ (name, 100) ∈ pairs)) →
      maxBySecond acc pairs = (name, 100) := by
  intro pairs
  induction pairs with
  | nil =>
    intro acc _ hacc
    rcases hacc with rfl | ⟨_, h⟩
    · rfl
    · simp at h
  | cons q rest ih =>
    intro acc hq hacc
    have hqrest : ∀ p ∈ rest, (p.1 = name ∧ p.2 = 100) ∨ p.2 < 100 :=
      fun p hp => hq p (List.mem_cons_of_mem q hp)
    have hq2 : q.2 ≤ 100 := by
      rcases hq q (List.mem_cons_self q rest) with ⟨_, h2⟩ | h2 <;> omega
    simp only [maxBySecond]
    rcases hacc with rfl | ⟨hlt, hmem⟩
    · have hngt : ¬ q.2 > (name, 100).2 := by
        show ¬ q.2 > 100
        omega
      rw [if_neg hngt]
      exact ih (name, 100) hqrest (Or.inl rfl)
    · by_cases hgt : q.2 > acc.2
      · rw [if_pos hgt]
        rcases hq q (List.mem_cons_self q rest) with ⟨h1, h2⟩ | h2
        · have hqeq : q = (name, 100) := by
            rcases q with ⟨a, b⟩
            simp only at h1 h2
            rw [h1, h2]
          rw [hqeq]
          exact ih (name, 100) hqrest (Or.inl rfl)
        · refine ih q hqrest (Or.inr ⟨h2, ?_⟩)
          rcases List.mem_cons.mp hmem with h | h
          · exfalso; rw [← h] at h2; exact absurd h2 (by simp)
          · exact h
      · rw [if_neg hgt]
        refine ih acc hqrest (Or.inr ⟨hlt, ?_⟩)
        rcases List.mem_cons.mp hmem with h | h
        · exfalso
          rw [← h] at hgt
          exact hgt hlt
        · exact h

/-- `extractOne` returns the query itself when the query is among the
choices, scores 100 against itself, and every other choice scores below
100. -/
lemma extractOne_self (score : String → String → Nat) (name : String)
    (choices : List String) (hself : score name name = 100)
    (hothers : ∀ k ∈ choices, k ≠ name → score name k < 100)
    (hmem : name ∈ choices) :
    extractOne score name choices 85 = some name := by
  unfold extractOne
  have hprop : ∀ q ∈ (choices.map (fun c => (c, score name c))).filter
      (fun p => 85 ≤ p.2), (q.1 = name ∧ q.2 = 100) ∨ q.2 < 100 := by
    intro q hqf
    have hqm := List.mem_of_mem_filter hqf
    rcases List.mem_map.mp hqm with ⟨c, hc, rfl⟩
    by_cases hcn : c = name
    · subst hcn; exact Or.inl ⟨rfl, hself⟩
    · exact Or.inr (hothers c hc hcn)
  have hin : (name, 100) ∈ (choices.map (fun c => (c, score name c))).filter
      (fun p => 85 ≤ p.2) := by
    apply List.mem_filter.mpr
    refine ⟨List.mem_map.mpr ⟨name, hmem, by rw [hself]⟩, by simp⟩
  cases hbest : (choices.map (fun c => (c, score name c))).filter (fun p => 85 ≤ p.2) with
  | nil => rw [hbest] at hin; simp at hin
  | cons p rest =>
    rw [hbest] at hin hprop
    have : maxBySecond p rest = (name, 100) := by
      apply maxBySecond_name name rest p (fun q hq => hprop q (List.mem_cons_of_mem p hq))
      rcases List.mem_cons.mp hin with h | h
      · exact Or.inl h.symm
      · rcases hprop p (by simp) with ⟨h1, h2⟩ | h2
        · exact Or.inl (by rcases p with ⟨a, b⟩; simp_all)
        · exact Or.inr ⟨h2, h⟩
    simp [this]

/-- C9: normalization is idempotent on canonical names, given that the
alias table does not remap the name, the fuzzy scorer gives an exact match
the full score 100, and every other canonical name scores strictly below
100 (the behaviour of `WRatio` on a directory of pairwise-distinct
canonical names, as shipped). -/
theorem C9_idempotent (ctx : Ctx) (name : String)
    (hne : ¬ name = "")
    (hmem : name ∈ ctx.graph.map Prod.fst)
    (halias : (alookup ctx.aliases (lowerStrip name)).getD name = name)
    (hself : ctx.score name name = 100)
    (hothers : ∀ k ∈ ctx.graph.map Prod.fst, k ≠ name → ctx.score name k < 100) :
    normalizeServiceName ctx name = name := by
  simp only [normalizeServiceName, if_neg hne, halias]
  rw [extractOne_self ctx.score name _ hself hothers hmem]

/-- C9 witness: with the alias table of `main.py` and a directory holding
its canonical targets, normalizing the canonical name auth-service
returns it unchanged. -/
theorem C9_idempotent_witness :
    normalizeServiceName ctxC9 "auth-service" = "auth-service" :=
  C9_idempotent ctxC9 "auth-service" (by decide) (by decide) (by decide) (by decide)
    (by decide)

/-! ## Claim C6 -/

/-- C6 counterexample: a Medium event together with the synthetic Peak
Hours entry on the same day merges into a single entry whose label is just
`"Maintenance"` — the names are not combined (combination happens only on
an exact priority tie), contradicting the claimed combined label. -/
theorem C6_counterexample :
    (assessBusinessImpactCore ctxC6 ⟨2025, 3, 5, 10, 0, 0⟩ []).toOption.map
        (fun r => r.business_impact_timeline) =
      some [⟨⟨3, 5⟩, "Maintenance", "Medium"⟩] ∧
    pyInStr "Peak Hours" "Maintenance" = false := by
  exact ⟨by decide, by decide⟩

/-- C6 (amended): two same-day entries with display levels Medium and Peak
merge — in either arrival order — into the single Medium entry, whose
event label is the Medium entry label alone; the Peak-level name is
dropped (labels are only combined on an exact priority tie). -/
theorem C6_merge (t : DateTime) (d : MD) (n1 n2 : String) :
    mergeTimeline t [⟨d, n1, "Medium"⟩, ⟨d, n2, "Peak"⟩] = [⟨d, n1, "Medium"⟩] ∧
    mergeTimeline t [⟨d, n2, "Peak"⟩, ⟨d, n1, "Medium"⟩] = [⟨d, n1, "Medium"⟩] := by
  constructor <;> simp [mergeTimeline, insertMerge, dateKey, levelPriority]

/-! ## Claim C10 -/

/-- C10: on an exact priority tie the incoming label is appended only when
it is not already a substring of the stored label; consequently the
distinct event `"Upgrade"`, sharing its day with
`"Database Upgrade Window"`, contributes its +1 risk score (total 2) but
is absent from the merged label. -/
theorem C10_substring_label (t : DateTime) (d : MD) (n1 n2 lv : String) :
    mergeTimeline t [⟨d, n1, lv⟩, ⟨d, n2, lv⟩] =
      [⟨d, if pyInStr n2 n1 then n1 else n1 ++ ", " ++ n2, lv⟩] ∧
    (assessBusinessImpactCore ctxC10 ⟨2025, 3, 8, 2, 0, 0⟩ []).toOption.map
        (fun r => (r.overall_business_risk_score, r.business_impact_timeline)) =
      some (2, [⟨⟨3, 8⟩, "Database Upgrade Window", "Medium"⟩]) := by
  constructor
  · by_cases hsub : pyInStr n2 n1 <;> simp [mergeTimeline, insertMerge, dateKey, hsub]
  · decide

/-! ## Claim C3 -/

/-- The merge key only reads the date of an entry. -/
lemma dateKey_congr (t : DateTime) (a b : TEntry) (h : a.date = b.date) :
    dateKey t a = dateKey t b := by
  unfold dateKey
  rw [h]

/-- The event loop accumulates exactly the per-event contributions of the
in-window, service-matching events. -/
lemma eventLoop_score (ctx : Ctx) (t : DateTime) (ns : List String) :
    ∀ (evts : List BEvent) (l : List TEntry) (s : Int),
      (eventLoop ctx t ns evts (l, s)).2 =
        s + ((evts.filter (fun e => inEventWindow e t && eventMatches ctx ns e)).map
          eventContribution).sum := by
  intro evts
  induction evts with
  | nil => intro l s; simp [eventLoop]
  | cons e rest ih =>
    intro l s
    rw [eventLoop]
    by_cases h : (inEventWindow e t && eventMatches ctx ns e) = true
    · rw [if_pos h, ih, List.filter_cons]
      simp only [h, if_true, List.map_cons, List.sum_cons]
      ring
    · have h' : (inEventWindow e t && eventMatches ctx ns e) = false := by
        simpa using h
      rw [if_neg h, ih, List.filter_cons]
      simp [h']

/-- The event loop is the identity when no event window contains the
proposed instant. -/
lemma eventLoop_nomatch (ctx : Ctx) (t : DateTime) (ns : List String) :
    ∀ (evts : List BEvent) (l : List TEntry) (s : Int),
      (∀ e ∈ evts, inEventWindow e t = false) →
      eventLoop ctx t ns evts (l, s) = (l, s) := by
  intro evts
  induction evts with
  | nil => intro l s _; rfl
  | cons e rest ih =>
    intro l s hall
    rw [eventLoop, if_neg (by simp [hall e (List.mem_cons_self e rest)])]
    exact ih l s (fun e' he' => hall e' (List.mem_cons_of_mem e he'))

/-- C3 (amended): every matching in-window event contributes exactly
its criticality score (Critical +5, High +3, Medium +1, Low +0) plus +2
when flagged as a blackout window; and a proposed instant that is outside
the weekday business-hours window, falls on a day other than Feb 29, and
lies inside a single matching Critical blackout event with
`impactedSystems = ["all-systems"]` yields riskScore 7 and overall level
High.  (Inside the weekday 09:00–17:59 window the business-hours
adjustment adds a further +1, so the claimed total of 7 holds only
outside it — see the counterexample; and on Feb 29 the final timeline
sort raises `ValueError` — its `strptime` key lives in year 1900 — so no
result is returned at all, which is what the `valid1900` hypothesis
excludes.) -/
theorem C3_event_scoring :
    (∀ (ctx : Ctx) (t : DateTime) (ns : List String) (l : List TEntry) (s : Int),
      (eventLoop ctx t ns ctx.businessEvents (l, s)).2 =
        s + ((ctx.businessEvents.filter
            (fun e => inEventWindow e t && eventMatches ctx ns e)).map
          eventContribution).sum) ∧
    (∀ (ctx : Ctx) (e : BEvent) (t : DateTime) (svcs : List String),
      ctx.businessEvents = [e] →
      e.criticality = "Critical" →
      e.blackoutWindow = true →
      e.impactedSystems = ["all-systems"] →
      inEventWindow e t = true →
      isWeekdayBusinessHours t = false →
      (t.md).valid1900 = true →
      (assessBusinessImpactCore ctx t svcs).toOption.map
          (fun r => (r.overall_business_risk_score, r.business_impact_level))
        = some (7, "High")) := by
  constructor
  · intro ctx t ns l s
    exact eventLoop_score ctx t ns ctx.businessEvents l s
  · intro ctx e t svcs hevts hcrit hblk hsys hwin hbh hvalid
    have hmatch : eventMatches ctx
        ((svcs.filter (fun s => s ≠ "")).map (normalizeServiceName ctx)) e = true := by
      unfold eventMatches
      rw [hsys]
      simp
    have hcontrib : eventContribution e = 7 := by
      rw [eventContribution, critScore, hcrit, hblk]
      norm_num
    have hloop : eventLoop ctx t
        ((svcs.filter (fun s => s ≠ "")).map (normalizeServiceName ctx)) [e] ([], 0) =
        ([⟨t.md, e.eventName, e.criticality⟩], 7) := by
      rw [eventLoop, if_pos (by rw [hwin, hmatch]; rfl), hcontrib]
      rfl
    have hadj : businessHoursAdjust t ([⟨t.md, e.eventName, e.criticality⟩], 7) =
        ([⟨t.md, e.eventName, e.criticality⟩], 7) := by
      rw [businessHoursAdjust, if_neg]
      intro hand
      rw [hbh] at hand
      exact absurd hand.1 (by simp)
    have hfinal : finalLevel [⟨t.md, e.eventName, e.criticality⟩] = "High" := by
      rw [finalLevel, if_pos (by simp [hcrit])]
    have hlevel : proposedTimeLevel "High" [⟨t.md, e.eventName, e.criticality⟩] = "Conflict" := by
      rw [proposedTimeLevel,
        if_pos (by simp [show pyInStr "High" "High" = true from by decide])]
    simp only [assessBusinessImpactCore, hevts, hloop, hadj, hfinal]
    rw [timelineDisplay, if_neg (by simp), hlevel]
    by_cases hname : e.eventName = "Proposed Change"
    · rw [List.filter_cons_of_neg (by simp [hname])]
      simp only [List.filter_nil]
      rw [mergeTimeline]
      simp only [List.foldl, insertMerge, List.map_cons, List.map_nil]
      rw [sortTimeline, if_neg (by simp [hvalid])]
      rfl
    · rw [List.filter_cons_of_pos (by simp [hname]), List.filter_nil]
      rw [mergeTimeline]
      simp only [List.foldl, insertMerge]
      rw [hcrit]
      rw [if_pos (dateKey_congr t ⟨t.md, "Proposed Change", "Conflict"⟩
        ⟨t.md, e.eventName, "Critical"⟩ rfl)]
      rw [if_pos (by decide : levelPriority "Critical" > levelPriority "Conflict")]
      simp only [List.map_cons, List.map_nil]
      rw [sortTimeline, if_neg (by simp [hvalid])]
      rfl

/-- C3 witness: a Saturday 02:00 instant inside the Critical blackout
all-systems freeze event yields riskScore 7 and level High. -/
theorem C3_event_scoring_witness :
    (assessBusinessImpactCore ctxC3 ⟨2025, 3, 8, 2, 0, 0⟩ ["auth-service"]).toOption.map
        (fun r => (r.overall_business_risk_score, r.business_impact_level))
      = some (7, "High") :=
  C3_event_scoring.2 ctxC3 freezeEvent ⟨2025, 3, 8, 2, 0, 0⟩ ["auth-service"]
    rfl rfl rfl rfl (by decide) (by decide) (by decide)

/-- C3 counterexample: the same Critical blackout all-systems event, but
with the proposed instant at 10:00 on a Friday inside it: the weekday
business-hours adjustment fires too and the score is 8, not the claimed
7. -/
theorem C3_counterexample :
    (assessBusinessImpactCore ctxC3 ⟨2025, 3, 7, 10, 0, 0⟩ ["auth-service"]).toOption.map
        (fun r => r.overall_business_risk_score) = some 8 ∧ ¬ ((8 : Int) = 7) := by
  exact ⟨by decide, by decide⟩

/-! ## Claim C4 -/

/-- C4 counterexample: Wednesday March 5 2025 at 17:30 — outside the
claimed 09:00–17:00-inclusive window — still triggers the adjustment
(the code compares the hour component, `hour <= 17`, so 17:30 counts):
with no events at all the risk score is 1, not 0, and a synthetic Peak
Hours entry is produced. -/
theorem C4_counterexample :
    DateTime.isoweekday ⟨2025, 3, 5, 17, 30, 0⟩ = 3 ∧
    (assessBusinessImpactCore ctxNoData ⟨2025, 3, 5, 17, 30, 0⟩ []).toOption.map
        (fun r => (r.overall_business_risk_score, r.business_impact_timeline)) =
      some (1, [⟨⟨3, 5⟩, "Proposed Change, Peak Hours", "Peak"⟩]) ∧
    ¬ ((1 : Int) = 0) := by
  exact ⟨by decide, by decide, by decide⟩

/-- C4 (amended): the +1 adjustment and synthetic "Peak Hours" impact
event are produced exactly when the instant falls on a weekday at an hour
component between 9 and 17 inclusive (i.e. from 09:00:00 through
17:59:59) and no already-recorded impact event carries one of the three
fixed names; at any hour before 9 or after 17, or on a weekend, nothing is
adjusted. -/
theorem C4_business_hours (t : DateTime) (evts : List TEntry) (s : Int) :
    (businessHoursAdjust t (evts, s) =
      if t.isoweekday ≤ 5 ∧ 9 ≤ t.hour ∧ t.hour ≤ 17 ∧
          ¬ evts.any (fun e => e.event = "Peak Hours" ∨
            e.event = "Monthly Payroll Processing" ∨
            e.event = "Black Friday Sale Preparation")
        then (evts ++ [⟨t.md, "Peak Hours", "Peak"⟩], s + 1) else (evts, s)) ∧
    ((17 < t.hour ∨ t.hour < 9 ∨ 5 < t.isoweekday) →
      businessHoursAdjust t (evts, s) = (evts, s)) := by
  have hany : (evts.any (fun e => alreadyBusinessHoursNames.contains e.event)) =
      (evts.any (fun e => e.event = "Peak Hours" ∨
        e.event = "Monthly Payroll Processing" ∨
        e.event = "Black Friday Sale Preparation")) := by
    induction evts with
    | nil => rfl
    | cons e rest ih =>
      simp only [List.any_cons, ih]
      congr 1
      simp only [alreadyBusinessHoursNames, List.contains, List.elem]
      cases h1 : e.event == "Peak Hours" <;>
        cases h2 : e.event == "Monthly Payroll Processing" <;>
          cases h3 : e.event == "Black Friday Sale Preparation" <;>
            simp_all [beq_iff_eq]
  have hiff : (isWeekdayBusinessHours t ∧
      ¬ evts.any (fun e => alreadyBusinessHoursNames.contains e.event)) ↔
      (t.isoweekday ≤ 5 ∧ 9 ≤ t.hour ∧ t.hour ≤ 17 ∧
        ¬ evts.any (fun e => e.event = "Peak Hours" ∨
          e.event = "Monthly Payroll Processing" ∨
          e.event = "Black Friday Sale Preparation")) := by
    rw [hany]
    unfold isWeekdayBusinessHours
    simp [Bool.and_eq_true, decide_eq_true_eq, and_assoc]
  constructor
  · rw [businessHoursAdjust, if_congr hiff rfl rfl]
  · intro h
    rw [businessHoursAdjust, if_neg]
    intro hand
    have hb := hiff.mp hand
    rcases h with h | h | h <;> omega


/-- C4 witness: at 02:00 (hour below 9) the adjustment is a no-op. -/
theorem C4_business_hours_witness :
    businessHoursAdjust ⟨2025, 3, 8, 2, 0, 0⟩ ([], 0) = ([], 0) :=
  (C4_business_hours ⟨2025, 3, 8, 2, 0, 0⟩ [] 0).2 (by decide)

/-! ## Claim C5 -/

lemma MD.lt_iff (a b : MD) :
    MD.lt a b = true ↔ (a.month < b.month ∨ (a.month = b.month ∧ a.day < b.day)) := by
  unfold MD.lt
  simp [Bool.or_eq_true, Bool.and_eq_true, decide_eq_true_eq, beq_iff_eq]

lemma MD.lt_ne {a b : MD} (h : MD.lt a b = true) : a ≠ b := by
  rw [MD.lt_iff] at h
  intro heq
  subst heq
  omega

lemma MD.lt_flip {a b : MD} (h : MD.lt a b = true) : MD.lt b a = false := by
  cases hba : MD.lt b a with
  | false => rfl
  | true => rw [MD.lt_iff] at h hba; omega

lemma MD.lt_trans {a b c : MD} (h1 : MD.lt a b = true) (h2 : MD.lt b c = true) :
    MD.lt a c = true := by
  rw [MD.lt_iff] at h1 h2 ⊢
  omega

lemma isLeap_iff (y : Nat) :
    isLeap y = true ↔ ((y % 4 = 0 ∧ y % 100 ≠ 0) ∨ y % 400 = 0) := by
  unfold isLeap
  simp [Bool.or_eq_true, Bool.and_eq_true, beq_iff_eq, bne_iff_ne]

lemma daysInMonth_pos (y m : Nat) : 1 ≤ daysInMonth y m := by
  unfold daysInMonth
  split_ifs <;> omega

lemma daysInMonth_le (y m : Nat) : daysInMonth y m ≤ 31 := by
  unfold daysInMonth
  split_ifs <;> omega

/-- The day bound of `Valid` expressed through `daysInMonth`. -/
lemma valid_day_le {t : DateTime} (hv : t.Valid) :
    t.day ≤ daysInMonth t.year t.month := by
  obtain ⟨_, _, _, _, hd, _, _, _⟩ := hv
  unfold daysInMonth
  by_cases h2 : t.month = 2
  · rw [if_pos h2] at hd ⊢
    by_cases hL : (t.year % 4 = 0 ∧ t.year % 100 ≠ 0) ∨ t.year % 400 = 0
    · rw [if_pos hL] at hd
      rw [if_pos (isLeap_iff t.year |>.mpr hL)]
      exact hd
    · rw [if_neg hL] at hd
      rw [if_neg (fun hb => hL ((isLeap_iff t.year).mp hb))]
      exact hd
  · rw [if_neg h2] at hd ⊢
    exact hd

/-- A genuine month/day pair other than Feb 29 also exists in year 1900. -/
lemma valid1900_of (y m d : Nat) (hm1 : 1 ≤ m) (hm12 : m ≤ 12) (hd1 : 1 ≤ d)
    (hdle : d ≤ daysInMonth y m) (hne : ¬ (m = 2 ∧ d = 29)) :
    MD.valid1900 ⟨m, d⟩ = true := by
  have hd1900 : d ≤ daysInMonth 1900 m := by
    unfold daysInMonth at hdle ⊢
    by_cases h2 : m = 2
    · rw [if_pos h2] at hdle ⊢
      rw [show isLeap 1900 = false from by decide]
      have : d ≤ 29 := by split_ifs at hdle <;> omega
      have : d ≠ 29 := fun hd29 => hne ⟨h2, hd29⟩
      simp
      omega
    · rw [if_neg h2] at hdle ⊢
      exact hdle
  unfold MD.valid1900
  simp only [Bool.and_eq_true, decide_eq_true_eq]
  exact ⟨⟨⟨hm1, hm12⟩, hd1⟩, hd1900⟩

lemma md_lt_subOneDay (t : DateTime) (hv : t.Valid) (h11 : ¬ (t.month = 1 ∧ t.day = 1)) :
    MD.lt t.subOneDay.md t.md = true := by
  obtain ⟨_, hm1, hm12, hd1, _, _, _, _⟩ := hv
  unfold DateTime.subOneDay
  by_cases hd : 1 < t.day
  · rw [if_pos hd]
    simp [DateTime.md, MD.lt_iff]
    omega
  · rw [if_neg hd]
    have hdeq : t.day = 1 := by omega
    have hm : 1 < t.month := by
      rcases Nat.lt_or_ge 1 t.month with h | h
      · exact h
      · exact absurd ⟨by omega, hdeq⟩ h11
    rw [if_pos hm]
    simp [DateTime.md, MD.lt_iff]
    omega

lemma md_lt_addOneDay (t : DateTime) (hv : t.Valid) (h1231 : ¬ (t.month = 12 ∧ t.day = 31)) :
    MD.lt t.md t.addOneDay.md = true := by
  have hm12 := hv.2.2.1
  have hdle := valid_day_le hv
  unfold DateTime.addOneDay
  by_cases hd : t.day < daysInMonth t.year t.month
  · rw [if_pos hd]
    simp [DateTime.md, MD.lt_iff]
  · rw [if_neg hd]
    by_cases hm : t.month < 12
    · rw [if_pos hm]
      simp [DateTime.md, MD.lt_iff]
    · exfalso
      have hmeq : t.month = 12 := by omega
      have h31 : daysInMonth t.year 12 = 31 := by unfold daysInMonth; norm_num
      rw [hmeq] at hd hdle
      exact h1231 ⟨hmeq, by omega⟩

/-- The day before a valid date (other than Jan 1) is a valid month/day in
1900 as long as it is not Feb 29. -/
lemma subOneDay_valid1900 (t : DateTime) (hv : t.Valid)
    (h11 : ¬ (t.month = 1 ∧ t.day = 1)) (hne : t.subOneDay.md ≠ ⟨2, 29⟩) :
    (t.subOneDay.md).valid1900 = true := by
  have hdle := valid_day_le hv
  obtain ⟨_, hm1, hm12, hd1, _, _, _, _⟩ := hv
  unfold DateTime.subOneDay at hne ⊢
  by_cases hd : 1 < t.day
  · rw [if_pos hd] at hne ⊢
    refine valid1900_of t.year t.month (t.day - 1) hm1 hm12 (by omega) (by omega) ?_
    intro ⟨hm2, hd29⟩
    exact hne (by simp [DateTime.md, hm2, hd29])
  · rw [if_neg hd] at hne ⊢
    have hdeq : t.day = 1 := by omega
    have hm : 1 < t.month := by
      rcases Nat.lt_or_ge 1 t.month with h | h
      · exact h
      · exact absurd ⟨by omega, hdeq⟩ h11
    rw [if_pos hm] at hne ⊢
    refine valid1900_of t.year (t.month - 1) (daysInMonth t.year (t.month - 1))
      (by omega) (by omega) (daysInMonth_pos _ _) le_rfl ?_
    intro ⟨hm2, hd29⟩
    rw [hm2] at hd29
    exact hne (by simp [DateTime.md, hm2, hd29])

/-- The day after a valid date (other than Dec 31) is a valid month/day in
1900 as long as it is not Feb 29. -/
lemma addOneDay_valid1900 (t : DateTime) (hv : t.Valid)
    (hne : t.addOneDay.md ≠ ⟨2, 29⟩) :
    (t.addOneDay.md).valid1900 = true := by
  have hdle := valid_day_le hv
  obtain ⟨_, hm1, hm12, hd1, _, _, _, _⟩ := hv
  unfold DateTime.addOneDay at hne ⊢
  by_cases hd : t.day < daysInMonth t.year t.month
  · rw [if_pos hd] at hne ⊢
    refine valid1900_of t.year t.month (t.day + 1) hm1 hm12 (by omega) (by omega) ?_
    intro ⟨hm2, hd29⟩
    exact hne (by simp [DateTime.md, hm2, hd29])
  · rw [if_neg hd] at hne ⊢
    by_cases hm : t.month < 12
    · rw [if_pos hm] at hne ⊢
      exact valid1900_of t.year (t.month + 1) 1 (by omega) (by omega) le_rfl
        (daysInMonth_pos _ _) (by omega)
    · rw [if_neg hm] at hne ⊢
      exact valid1900_of (t.year + 1) 1 1 le_rfl (by omega) le_rfl
        (by unfold daysInMonth; norm_num) (by omega)

/-- The current valid date itself, when not Feb 29, is valid in 1900. -/
lemma md_valid1900 (t : DateTime) (hv : t.Valid) (hne : t.md ≠ ⟨2, 29⟩) :
    (t.md).valid1900 = true := by
  have hdle := valid_day_le hv
  obtain ⟨_, hm1, hm12, hd1, _, _, _, _⟩ := hv
  refine valid1900_of t.year t.month t.day hm1 hm12 hd1 hdle ?_
  intro ⟨hm2, hd29⟩
  exact hne (by simp [DateTime.md, hm2, hd29])

lemma triple_ne_of_md_ne {a b : MD} (h : a ≠ b) :
    ((1900 : Nat), a.month, a.day) ≠ ((1900 : Nat), b.month, b.day) := by
  intro hc
  apply h
  cases a
  cases b
  simp_all

/-- C5 (amended): with no business-event window containing the proposed
instant and the instant outside weekday business hours, the evaluation
returns level Low, riskScore 0, and the three-entry Safe / Proposed / Safe
timeline in ascending calendar-day order — provided the three-day window
does not cross a year boundary (the sort key parses every entry in year
1900, so a Dec 31 entry sorts after a Jan 1 entry) and contains no Feb 29
(whose sort key raises `ValueError`); the two provisos are forced by the
counterexample and the leap-year crash. -/
theorem C5_no_events (ctx : Ctx) (t : DateTime) (svcs : List String)
    (hv : t.Valid)
    (hev : ∀ e ∈ ctx.businessEvents, inEventWindow e t = false)
    (hbh : isWeekdayBusinessHours t = false)
    (h11 : ¬ (t.month = 1 ∧ t.day = 1))
    (h1231 : ¬ (t.month = 12 ∧ t.day = 31))
    (hpre : t.subOneDay.md ≠ ⟨2, 29⟩)
    (hcur : t.md ≠ ⟨2, 29⟩)
    (hsuc : t.addOneDay.md ≠ ⟨2, 29⟩) :
    assessBusinessImpactCore ctx t svcs = .ok
      { business_impact_level := "Low"
        overall_business_risk_score := 0
        business_impact_timeline :=
          [⟨t.subOneDay.md, "Safe Window", "Safe"⟩,
           ⟨t.md, "Proposed Change", "Safe"⟩,
           ⟨t.addOneDay.md, "Safe Window", "Safe"⟩]
        business_summary := "Business impact level: Low. Conflicts identified: None." } ∧
    MD.lt t.subOneDay.md t.md = true ∧ MD.lt t.md t.addOneDay.md = true := by
  have hlt1 : MD.lt t.subOneDay.md t.md = true := md_lt_subOneDay t hv h11
  have hlt2 : MD.lt t.md t.addOneDay.md = true := md_lt_addOneDay t hv h1231
  have hlt3 : MD.lt t.subOneDay.md t.addOneDay.md = true := MD.lt_trans hlt1 hlt2
  have v1 : (t.subOneDay.md).valid1900 = true := subOneDay_valid1900 t hv h11 hpre
  have v2 : (t.md).valid1900 = true := md_valid1900 t hv hcur
  have v3 : (t.addOneDay.md).valid1900 = true := addOneDay_valid1900 t hv hsuc
  refine ⟨?_, hlt1, hlt2⟩
  have hloop := eventLoop_nomatch ctx t
    ((svcs.filter (fun s => s ≠ "")).map (normalizeServiceName ctx))
    ctx.businessEvents [] 0 hev
  have hadj : businessHoursAdjust t ([], 0) = ([], 0) := by
    rw [businessHoursAdjust, if_neg]
    intro hand
    rw [hbh] at hand
    exact absurd hand.1 (by simp)
  simp only [assessBusinessImpactCore, hloop, hadj]
  have hdisp : timelineDisplay t (finalLevel []) [] =
      [⟨t.subOneDay.md, "Safe Window", "Safe"⟩,
       ⟨t.md, "Proposed Change", "Safe"⟩,
       ⟨t.addOneDay.md, "Safe Window", "Safe"⟩] := by
    rw [timelineDisplay, if_pos rfl]
  rw [hdisp]
  have hk1 : dateKey t ⟨t.subOneDay.md, "Safe Window", "Safe"⟩ =
      ((1900 : Nat), t.subOneDay.md.month, t.subOneDay.md.day) := by
    rw [dateKey, if_pos v1]
  have hk2 : dateKey t ⟨t.md, "Proposed Change", "Safe"⟩ =
      ((1900 : Nat), t.md.month, t.md.day) := by
    rw [dateKey, if_pos v2]
  have hk3 : dateKey t ⟨t.addOneDay.md, "Safe Window", "Safe"⟩ =
      ((1900 : Nat), t.addOneDay.md.month, t.addOneDay.md.day) := by
    rw [dateKey, if_pos v3]
  have h2 : insertMerge ((1900 : Nat), t.md.month, t.md.day)
      ⟨t.md, "Proposed Change", "Safe"⟩
      [(((1900 : Nat), t.subOneDay.md.month, t.subOneDay.md.day),
        ⟨t.subOneDay.md, "Safe Window", "Safe"⟩)] =
      [(((1900 : Nat), t.subOneDay.md.month, t.subOneDay.md.day),
        ⟨t.subOneDay.md, "Safe Window", "Safe"⟩),
       (((1900 : Nat), t.md.month, t.md.day), ⟨t.md, "Proposed Change", "Safe"⟩)] := by
    simp only [insertMerge]
    rw [if_neg (triple_ne_of_md_ne (MD.lt_ne hlt1))]
  have h3 : insertMerge ((1900 : Nat), t.addOneDay.md.month, t.addOneDay.md.day)
      ⟨t.addOneDay.md, "Safe Window", "Safe"⟩
      [(((1900 : Nat), t.subOneDay.md.month, t.subOneDay.md.day),
        ⟨t.subOneDay.md, "Safe Window", "Safe"⟩),
       (((1900 : Nat), t.md.month, t.md.day), ⟨t.md, "Proposed Change", "Safe"⟩)] =
      [(((1900 : Nat), t.subOneDay.md.month, t.subOneDay.md.day),
        ⟨t.subOneDay.md, "Safe Window", "Safe"⟩),
       (((1900 : Nat), t.md.month, t.md.day), ⟨t.md, "Proposed Change", "Safe"⟩),
       (((1900 : Nat), t.addOneDay.md.month, t.addOneDay.md.day),
        ⟨t.addOneDay.md, "Safe Window", "Safe"⟩)] := by
    simp only [insertMerge]
    rw [if_neg (triple_ne_of_md_ne (MD.lt_ne hlt3))]
    rw [if_neg (triple_ne_of_md_ne (MD.lt_ne hlt2))]
  have hmerge : mergeTimeline t
      [⟨t.subOneDay.md, "Safe Window", "Safe"⟩,
       ⟨t.md, "Proposed Change", "Safe"⟩,
       ⟨t.addOneDay.md, "Safe Window", "Safe"⟩] =
      [⟨t.subOneDay.md, "Safe Window", "Safe"⟩,
       ⟨t.md, "Proposed Change", "Safe"⟩,
       ⟨t.addOneDay.md, "Safe Window", "Safe"⟩] := by
    rw [mergeTimeline]
    simp only [List.foldl, hk1, hk2, hk3]
    rw [show insertMerge ((1900 : Nat), t.subOneDay.md.month, t.subOneDay.md.day)
      ⟨t.subOneDay.md, "Safe Window", "Safe"⟩ [] =
      [(((1900 : Nat), t.subOneDay.md.month, t.subOneDay.md.day),
        ⟨t.subOneDay.md, "Safe Window", "Safe"⟩)] from rfl]
    rw [h2, h3]
    rfl
  rw [hmerge]
  have i2 : insertByMD ⟨t.md, "Proposed Change", "Safe"⟩
      [⟨t.subOneDay.md, "Safe Window", "Safe"⟩] =
      [⟨t.subOneDay.md, "Safe Window", "Safe"⟩, ⟨t.md, "Proposed Change", "Safe"⟩] := by
    simp only [insertByMD]
    rw [if_neg (by rw [MD.lt_flip hlt1]; exact Bool.false_ne_true)]
  have i3 : insertByMD ⟨t.addOneDay.md, "Safe Window", "Safe"⟩
      [⟨t.subOneDay.md, "Safe Window", "Safe"⟩, ⟨t.md, "Proposed Change", "Safe"⟩] =
      [⟨t.subOneDay.md, "Safe Window", "Safe"⟩, ⟨t.md, "Proposed Change", "Safe"⟩,
       ⟨t.addOneDay.md, "Safe Window", "Safe"⟩] := by
    simp only [insertByMD]
    rw [if_neg (by rw [MD.lt_flip hlt3]; exact Bool.false_ne_true)]
    rw [if_neg (by rw [MD.lt_flip hlt2]; exact Bool.false_ne_true)]
  have hsorted : sortTimeline
      [⟨t.subOneDay.md, "Safe Window", "Safe"⟩,
       ⟨t.md, "Proposed Change", "Safe"⟩,
       ⟨t.addOneDay.md, "Safe Window", "Safe"⟩] = .ok
      [⟨t.subOneDay.md, "Safe Window", "Safe"⟩,
       ⟨t.md, "Proposed Change", "Safe"⟩,
       ⟨t.addOneDay.md, "Safe Window", "Safe"⟩] := by
    rw [sortTimeline, if_neg (by simp [v1, v2, v3])]
    simp only [List.foldl]
    rw [show insertByMD ⟨t.subOneDay.md, "Safe Window", "Safe"⟩ [] =
      [⟨t.subOneDay.md, "Safe Window", "Safe"⟩] from rfl]
    rw [i2, i3]
  rw [hsorted]
  rfl

/-- C5 witness: Saturday January 18 2025 at 02:00 with an empty calendar
produces the ascending three-entry Safe / Proposed / Safe timeline. -/
theorem C5_no_events_witness :
    assessBusinessImpactCore ctxNoData ⟨2025, 1, 18, 2, 0, 0⟩ [] = .ok
      { business_impact_level := "Low"
        overall_business_risk_score := 0
        business_impact_timeline :=
          [⟨⟨1, 17⟩, "Safe Window", "Safe"⟩,
           ⟨⟨1, 18⟩, "Proposed Change", "Safe"⟩,
           ⟨⟨1, 19⟩, "Safe Window", "Safe"⟩]
        business_summary := "Business impact level: Low. Conflicts identified: None." } :=
  (C5_no_events ctxNoData ⟨2025, 1, 18, 2, 0, 0⟩ [] (by decide) (by simp [ctxNoData])
    (by decide) (by decide) (by decide) (by decide) (by decide) (by decide)).1

/-- C5 counterexample: at January 1 2025 02:00 (no events, outside
business hours) the three timeline entries survive but sort as
Jan 1, Jan 2, Dec 31 — the "Safe Window" of the day before comes last,
not first, because every entry is parsed in year 1900 for sorting. -/
theorem C5_counterexample :
    (assessBusinessImpactCore ctxNoData ⟨2025, 1, 1, 2, 0, 0⟩ []).toOption.map
        (fun r => r.business_impact_timeline) =
      some [⟨⟨1, 1⟩, "Proposed Change", "Safe"⟩,
            ⟨⟨1, 2⟩, "Safe Window", "Safe"⟩,
            ⟨⟨12, 31⟩, "Safe Window", "Safe"⟩] ∧
    ¬ ((assessBusinessImpactCore ctxNoData ⟨2025, 1, 1, 2, 0, 0⟩ []).toOption.map
        (fun r => r.business_impact_timeline) =
      some [⟨⟨12, 31⟩, "Safe Window", "Safe"⟩,
            ⟨⟨1, 1⟩, "Proposed Change", "Safe"⟩,
            ⟨⟨1, 2⟩, "Safe Window", "Safe"⟩]) := by
  exact ⟨by decide, by decide⟩

/-! ## Claim C7

The Python `find_downstream` recursion has no fuel; the model introduces
it, and the theorems below show the result is independent of the fuel once
it exceeds the number of distinct normalized forward-edge targets — which
is exactly the termination argument: a node is recursed into only right
after being freshly added to the impacted set, and only edge targets are
ever added, so the recursion depth is bounded. -/

lemma alookup_mem {α : Type} {l : List (String × α)} {k : String} {v : α}
    (h : alookup l k = some v) : (k, v) ∈ l := by
  unfold alookup at h
  cases hf : l.find? (fun p => p.1 = k) with
  | none => rw [hf] at h; exact absurd h (by simp)
  | some p =>
    rw [hf] at h
    have hmem := List.mem_of_find?_eq_some hf
    have hpred := List.find?_some hf
    simp only [decide_eq_true_eq] at hpred
    rcases p with ⟨k', v'⟩
    simp only at hpred
    simp only [Option.some.injEq] at h
    rw [← h, ← hpred]
    exact hmem

lemma revScan_append (ctx : Ctx) (tset : List String) (ns : String) :
    ∀ (sis : List ServiceInfo) (imp : List String),
      ∃ u, revScan ctx tset ns sis imp = imp ++ u := by
  intro sis
  induction sis with
  | nil => intro imp; exact ⟨[], by simp [revScan]⟩
  | cons si rest ih =>
    intro imp
    rw [revScan]
    split
    · obtain ⟨u, hu⟩ := ih (imp ++ [normalizeServiceName ctx si.serviceName])
      exact ⟨[normalizeServiceName ctx si.serviceName] ++ u, by rw [hu, List.append_assoc]⟩
    · exact ih imp

lemma goDeps_append (rec : String → List String → List String)
    (nrm : String → String) (tset : List String)
    (hrec : ∀ s imp, ∃ u, rec s imp = imp ++ u) :
    ∀ (deps : List String) (imp : List String),
      ∃ u, goDeps rec nrm tset deps imp = imp ++ u := by
  intro deps
  induction deps with
  | nil => intro imp; exact ⟨[], by simp [goDeps]⟩
  | cons dep rest ih =>
    intro imp
    rw [goDeps]
    split
    · obtain ⟨u1, hu1⟩ := hrec (nrm dep) (imp ++ [nrm dep])
      obtain ⟨u2, hu2⟩ := ih (rec (nrm dep) (imp ++ [nrm dep]))
      rw [hu2, hu1]
      exact ⟨[nrm dep] ++ u1 ++ u2, by simp [List.append_assoc]⟩
    · exact ih imp

lemma findDownstream_append (ctx : Ctx) (tset : List String) :
    ∀ (fuel : Nat) (s : String) (imp : List String),
      ∃ u, findDownstream ctx tset fuel s imp = imp ++ u := by
  intro fuel
  induction fuel with
  | zero => intro s imp; exact ⟨[], by simp [findDownstream]⟩
  | succ fuel ih =>
    intro s imp
    rw [findDownstream]
    cases halk : alookup ctx.graph (normalizeServiceName ctx s) with
    | none => exact ⟨[], by simp⟩
    | some deps =>
      dsimp only
      obtain ⟨u1, hu1⟩ := goDeps_append (findDownstream ctx tset fuel)
        (normalizeServiceName ctx) tset ih deps imp
      obtain ⟨u2, hu2⟩ := revScan_append ctx tset (normalizeServiceName ctx s)
        ctx.serviceDeps (goDeps (findDownstream ctx tset fuel) (normalizeServiceName ctx)
          tset deps imp)
      rw [hu2, hu1]
      exact ⟨u1 ++ u2, by rw [List.append_assoc]⟩

lemma filterLen_mono {α : Type} {p q : α → Bool}
    (h : ∀ a, p a = true → q a = true) :
    ∀ l : List α, (l.filter p).length ≤ (l.filter q).length := by
  intro l
  induction l with
  | nil => simp
  | cons a rest ih =>
    by_cases hp : p a = true
    · rw [List.filter_cons, if_pos hp, List.filter_cons, if_pos (h a hp)]
      simpa using ih
    · rw [List.filter_cons, if_neg hp, List.filter_cons]
      by_cases hq : q a = true
      · rw [if_pos hq]
        exact Nat.le_succ_of_le ih
      · rw [if_neg hq]
        exact ih

lemma filterLen_lt {α : Type} [DecidableEq α] {p q : α → Bool}
    (h : ∀ x, p x = true → q x = true) (a : α) (hpa : p a = false) (hqa : q a = true) :
    ∀ l : List α, a ∈ l → (l.filter p).length < (l.filter q).length := by
  intro l
  induction l with
  | nil => intro hmem; exact absurd hmem (by simp)
  | cons b rest ih =>
    intro hmem
    by_cases hab : a = b
    · subst hab
      rw [List.filter_cons, if_neg (by simp [hpa]), List.filter_cons, if_pos hqa]
      exact Nat.lt_succ_of_le (filterLen_mono h rest)
    · have hrest : a ∈ rest := by
        rcases List.mem_cons.mp hmem with hc | hc
        · exact absurd hc hab
        · exact hc
      rw [List.filter_cons, List.filter_cons]
      by_cases hpb : p b = true
      · rw [if_pos hpb, if_pos (h b hpb)]
        simpa using ih hrest
      · rw [if_neg hpb]
        by_cases hqb : q b = true
        · rw [if_pos hqb]
          exact Nat.lt_succ_of_le (Nat.le_of_lt (ih hrest))
        · rw [if_neg hqb]
          exact ih hrest

lemma mRem_le (ctx : Ctx) (imp : List String) :
    mRem ctx imp ≤ (edgeUniverse ctx).length :=
  List.length_filter_le _ _

lemma mRem_append_le (ctx : Ctx) (imp u : List String) :
    mRem ctx (imp ++ u) ≤ mRem ctx imp := by
  unfold mRem
  apply filterLen_mono
  intro a ha
  simp only [decide_eq_true_eq] at ha ⊢
  intro hmem
  exact ha (List.mem_append_left u hmem)

lemma mRem_insert_lt (ctx : Ctx) (imp : List String) (nd : String)
    (hU : nd ∈ edgeUniverse ctx) (hnew : nd ∉ imp) :
    mRem ctx (imp ++ [nd]) < mRem ctx imp := by
  unfold mRem
  apply filterLen_lt _ nd _ _ _ hU
  · intro x hx
    simp only [decide_eq_true_eq] at hx ⊢
    intro hmem
    exact hx (List.mem_append_left [nd] hmem)
  · simp
  · simpa using hnew

lemma norm_dep_mem_universe (ctx : Ctx) {ns : String} {deps : List String}
    (halk : alookup ctx.graph ns = some deps) {d : String} (hd : d ∈ deps) :
    normalizeServiceName ctx d ∈ edgeUniverse ctx := by
  unfold edgeUniverse
  rw [List.mem_dedup]
  apply List.mem_map_of_mem
  rw [List.mem_flatten]
  exact ⟨deps, List.mem_map_of_mem Prod.snd (alookup_mem halk), hd⟩

/-- Any two sufficient fuels give the same result: the recursion descends
only into freshly added edge-universe members, so the measure
`mRem` (edge-universe members not yet impacted) strictly decreases at
every descent. -/
lemma stable_main (ctx : Ctx) (tset : List String) :
    ∀ k : Nat,
      (∀ (f1 f2 : Nat) (deps imp : List String),
        (∀ d ∈ deps, normalizeServiceName ctx d ∈ edgeUniverse ctx) →
        mRem ctx imp ≤ k → mRem ctx imp ≤ f1 → mRem ctx imp ≤ f2 →
        goDeps (findDownstream ctx tset f1) (normalizeServiceName ctx) tset deps imp =
          goDeps (findDownstream ctx tset f2) (normalizeServiceName ctx) tset deps imp) ∧
      (∀ (f1 f2 : Nat) (s : String) (imp : List String),
        mRem ctx imp ≤ k → mRem ctx imp < f1 → mRem ctx imp < f2 →
        findDownstream ctx tset f1 s imp = findDownstream ctx tset f2 s imp) := by
  intro k
  induction k using Nat.strong_induction_on with
  | _ k IH =>
    have hG : ∀ (f1 f2 : Nat) (deps imp : List String),
        (∀ d ∈ deps, normalizeServiceName ctx d ∈ edgeUniverse ctx) →
        mRem ctx imp ≤ k → mRem ctx imp ≤ f1 → mRem ctx imp ≤ f2 →
        goDeps (findDownstream ctx tset f1) (normalizeServiceName ctx) tset deps imp =
          goDeps (findDownstream ctx tset f2) (normalizeServiceName ctx) tset deps imp := by
      intro f1 f2 deps
      induction deps with
      | nil => intro imp _ _ _ _; rfl
      | cons dep rest ihdeps =>
        intro imp hdeps hk h1 h2
        have hdrest : ∀ d ∈ rest, normalizeServiceName ctx d ∈ edgeUniverse ctx :=
          fun d hd => hdeps d (List.mem_cons_of_mem dep hd)
        simp only [goDeps]
        by_cases hfresh : normalizeServiceName ctx dep ∉ imp ∧
            normalizeServiceName ctx dep ∉ tset
        · rw [if_pos hfresh, if_pos hfresh]
          have hU : normalizeServiceName ctx dep ∈ edgeUniverse ctx :=
            hdeps dep (List.mem_cons_self dep rest)
          have hlt : mRem ctx (imp ++ [normalizeServiceName ctx dep]) < mRem ctx imp :=
            mRem_insert_lt ctx imp _ hU hfresh.1
          have hm1 : mRem ctx (imp ++ [normalizeServiceName ctx dep]) < f1 :=
            lt_of_lt_of_le hlt h1
          have hm2 : mRem ctx (imp ++ [normalizeServiceName ctx dep]) < f2 :=
            lt_of_lt_of_le hlt h2
          have hkpos : mRem ctx (imp ++ [normalizeServiceName ctx dep]) < k :=
            lt_of_lt_of_le hlt hk
          have hfd := (IH (mRem ctx (imp ++ [normalizeServiceName ctx dep])) hkpos).2
            f1 f2 (normalizeServiceName ctx dep) (imp ++ [normalizeServiceName ctx dep])
            le_rfl hm1 hm2
          rw [hfd]
          obtain ⟨u, hu⟩ := findDownstream_append ctx tset f2
            (normalizeServiceName ctx dep) (imp ++ [normalizeServiceName ctx dep])
          refine ihdeps _ hdrest ?_ ?_ ?_
          · rw [hu]
            exact le_trans (mRem_append_le ctx _ u) (le_of_lt hkpos)
          · rw [hu]
            exact le_trans (mRem_append_le ctx _ u) (le_of_lt hm1)
          · rw [hu]
            exact le_trans (mRem_append_le ctx _ u) (le_of_lt hm2)
        · rw [if_neg hfresh, if_neg hfresh]
          exact ihdeps imp hdrest hk h1 h2
    refine ⟨hG, ?_⟩
    intro f1 f2 s imp hk h1 h2
    cases f1 with
    | zero => omega
    | succ f1 =>
      cases f2 with
      | zero => omega
      | succ f2 =>
        rw [findDownstream, findDownstream]
        cases halk : alookup ctx.graph (normalizeServiceName ctx s) with
        | none => rfl
        | some deps =>
          dsimp only
          congr 1
          exact hG f1 f2 deps imp (fun d hd => norm_dep_mem_universe ctx halk hd)
            hk (Nat.le_of_lt_succ h1) (Nat.le_of_lt_succ h2)

lemma findDownstream_stable (ctx : Ctx) (tset : List String) {f1 f2 : Nat}
    (s : String) (imp : List String)
    (h1 : mRem ctx imp < f1) (h2 : mRem ctx imp < f2) :
    findDownstream ctx tset f1 s imp = findDownstream ctx tset f2 s imp :=
  (stable_main ctx tset (mRem ctx imp)).2 f1 f2 s imp le_rfl h1 h2

lemma foldFd_stable (ctx : Ctx) (tset : List String) (f1 f2 : Nat) :
    ∀ (systems : List String) (imp : List String),
      mRem ctx imp < f1 → mRem ctx imp < f2 →
      systems.foldl (fun imp s => findDownstream ctx tset f1 s imp) imp =
        systems.foldl (fun imp s => findDownstream ctx tset f2 s imp) imp := by
  intro systems
  induction systems with
  | nil => intro imp _ _; rfl
  | cons s rest ih =>
    intro imp h1 h2
    simp only [List.foldl]
    rw [findDownstream_stable ctx tset s imp h1 h2]
    obtain ⟨u, hu⟩ := findDownstream_append ctx tset f2 s imp
    apply ih
    · rw [hu]
      exact lt_of_le_of_lt (mRem_append_le ctx imp u) h1
    · rw [hu]
      exact lt_of_le_of_lt (mRem_append_le ctx imp u) h2

/-- The fuel `(edgeUniverse ctx).length + 1` used by
`analyzeServiceDependencies` is enough: any larger fuel computes the same
result. -/
lemma findDownstream_fuel (ctx : Ctx) (targets : List String) (fuel : Nat)
    (h : (edgeUniverse ctx).length + 1 ≤ fuel) :
    analyzeServiceDependenciesFuel ctx targets fuel =
      analyzeServiceDependencies ctx targets := by
  simp only [analyzeServiceDependencies, analyzeServiceDependenciesFuel]
  rw [foldFd_stable ctx ((targets.filter (fun s => s ≠ "")).map (normalizeServiceName ctx))
    fuel ((edgeUniverse ctx).length + 1)
    ((targets.filter (fun s => s ≠ "")).map (normalizeServiceName ctx)) []
    (lt_of_lt_of_le (Nat.lt_succ_of_le (mRem_le ctx [])) h)
    (Nat.lt_succ_of_le (mRem_le ctx []))]

lemma revScan_nodup (ctx : Ctx) (tset : List String) (ns : String) :
    ∀ (sis : List ServiceInfo) (imp : List String),
      imp.Nodup → (revScan ctx tset ns sis imp).Nodup := by
  intro sis
  induction sis with
  | nil => intro imp h; simpa [revScan] using h
  | cons si rest ih =>
    intro imp himp
    rw [revScan]
    by_cases hc : ns ∈ si.consumedBy.map (normalizeServiceName ctx) ∧
        normalizeServiceName ctx si.serviceName ∉ imp ∧
        normalizeServiceName ctx si.serviceName ∉ tset
    · rw [if_pos hc]
      apply ih
      rw [List.nodup_append]
      exact ⟨himp, List.nodup_singleton _, by simpa using fun hmem => hc.2.1 hmem⟩
    · rw [if_neg hc]
      exact ih imp himp

lemma goDeps_nodup (rec : String → List String → List String)
    (nrm : String → String) (tset : List String)
    (hrec : ∀ s imp, imp.Nodup → (rec s imp).Nodup) :
    ∀ (deps imp : List String), imp.Nodup → (goDeps rec nrm tset deps imp).Nodup := by
  intro deps
  induction deps with
  | nil => intro imp h; simpa [goDeps] using h
  | cons dep rest ih =>
    intro imp himp
    rw [goDeps]
    by_cases hc : nrm dep ∉ imp ∧ nrm dep ∉ tset
    · rw [if_pos hc]
      apply ih
      apply hrec
      rw [List.nodup_append]
      exact ⟨himp, List.nodup_singleton _, by simpa using fun hmem => hc.1 hmem⟩
    · rw [if_neg hc]
      exact ih imp himp

lemma findDownstream_nodup (ctx : Ctx) (tset : List String) :
    ∀ (fuel : Nat) (s : String) (imp : List String),
      imp.Nodup → (findDownstream ctx tset fuel s imp).Nodup := by
  intro fuel
  induction fuel with
  | zero => intro s imp h; simpa [findDownstream] using h
  | succ fuel ih =>
    intro s imp himp
    rw [findDownstream]
    cases halk : alookup ctx.graph (normalizeServiceName ctx s) with
    | none => exact himp
    | some deps =>
      dsimp only
      exact revScan_nodup ctx tset _ ctx.serviceDeps _
        (goDeps_nodup (findDownstream ctx tset fuel) (normalizeServiceName ctx) tset ih
          deps imp himp)

lemma revScan_subset (ctx : Ctx) (tset : List String) (ns : String) :
    ∀ (sis : List ServiceInfo) (imp : List String) (x : String),
      x ∈ revScan ctx tset ns sis imp →
      x ∈ imp ∨ x ∈ sis.map (fun si => normalizeServiceName ctx si.serviceName) := by
  intro sis
  induction sis with
  | nil => intro imp x hx; left; simpa [revScan] using hx
  | cons si rest ih =>
    intro imp x hx
    rw [revScan] at hx
    by_cases hc : ns ∈ si.consumedBy.map (normalizeServiceName ctx) ∧
        normalizeServiceName ctx si.serviceName ∉ imp ∧
        normalizeServiceName ctx si.serviceName ∉ tset
    · rw [if_pos hc] at hx
      rcases ih _ x hx with hmem | hmem
      · rcases List.mem_append.mp hmem with hmem | hmem
        · exact Or.inl hmem
        · right
          rw [List.map_cons]
          simp only [List.mem_singleton] at hmem
          rw [hmem]
          exact List.mem_cons_self _ _
      · right
        rw [List.map_cons]
        exact List.mem_cons_of_mem _ hmem
    · rw [if_neg hc] at hx
      rcases ih imp x hx with hmem | hmem
      · exact Or.inl hmem
      · right
        rw [List.map_cons]
        exact List.mem_cons_of_mem _ hmem

lemma goDeps_subset (ctx : Ctx) (rec : String → List String → List String)
    (tset : List String)
    (hrec : ∀ s imp x, x ∈ rec s imp →
      x ∈ imp ∨ x ∈ edgeUniverse ctx ∨
        x ∈ ctx.serviceDeps.map (fun si => normalizeServiceName ctx si.serviceName)) :
    ∀ (deps imp : List String),
      (∀ d ∈ deps, normalizeServiceName ctx d ∈ edgeUniverse ctx) →
      ∀ x, x ∈ goDeps rec (normalizeServiceName ctx) tset deps imp →
      x ∈ imp ∨ x ∈ edgeUniverse ctx ∨
        x ∈ ctx.serviceDeps.map (fun si => normalizeServiceName ctx si.serviceName) := by
  intro deps
  induction deps with
  | nil => intro imp _ x hx; left; simpa [goDeps] using hx
  | cons dep rest ih =>
    intro imp hdeps x hx
    have hdrest : ∀ d ∈ rest, normalizeServiceName ctx d ∈ edgeUniverse ctx :=
      fun d hd => hdeps d (List.mem_cons_of_mem dep hd)
    rw [goDeps] at hx
    by_cases hc : normalizeServiceName ctx dep ∉ imp ∧ normalizeServiceName ctx dep ∉ tset
    · rw [if_pos hc] at hx
      rcases ih _ hdrest x hx with hmem | hmem | hmem
      · rcases hrec _ _ x hmem with hmem2 | hmem2 | hmem2
        · rcases List.mem_append.mp hmem2 with hmem3 | hmem3
          · exact Or.inl hmem3
          · right; left
            simp only [List.mem_singleton] at hmem3
            rw [hmem3]
            exact hdeps dep (List.mem_cons_self dep rest)
        · exact Or.inr (Or.inl hmem2)
        · exact Or.inr (Or.inr hmem2)
      · exact Or.inr (Or.inl hmem)
      · exact Or.inr (Or.inr hmem)
    · rw [if_neg hc] at hx
      exact ih imp hdrest x hx

lemma findDownstream_subset (ctx : Ctx) (tset : List String) :
    ∀ (fuel : Nat) (s : String) (imp : List String) (x : String),
      x ∈ findDownstream ctx tset fuel s imp →
      x ∈ imp ∨ x ∈ edgeUniverse ctx ∨
        x ∈ ctx.serviceDeps.map (fun si => normalizeServiceName ctx si.serviceName) := by
  intro fuel
  induction fuel with
  | zero => intro s imp x hx; left; simpa [findDownstream] using hx
  | succ fuel ih =>
    intro s imp x hx
    rw [findDownstream] at hx
    cases halk : alookup ctx.graph (normalizeServiceName ctx s) with
    | none => rw [halk] at hx; exact Or.inl hx
    | some deps =>
      rw [halk] at hx
      dsimp only at hx
      rcases revScan_subset ctx tset _ ctx.serviceDeps _ x hx with hmem | hmem
      · exact goDeps_subset ctx (findDownstream ctx tset fuel) tset ih deps imp
          (fun d hd => norm_dep_mem_universe ctx halk hd) x hmem
      · exact Or.inr (Or.inr hmem)

lemma insertStr_perm (x : String) : ∀ l : List String, (insertStr x l).Perm (x :: l) := by
  intro l
  induction l with
  | nil => exact List.Perm.refl _
  | cons y ys ih =>
    rw [insertStr]
    by_cases hc : pyStrLt x y = true
    · rw [if_pos hc]
    · rw [if_neg hc]
      exact (ih.cons y).trans (List.Perm.swap x y ys)

lemma sortStrings_perm_aux :
    ∀ (l acc : List String),
      (l.foldl (fun a x => insertStr x a) acc).Perm (acc ++ l) := by
  intro l
  induction l with
  | nil => intro acc; simp
  | cons x xs ih =>
    intro acc
    simp only [List.foldl]
    refine (ih (insertStr x acc)).trans ?_
    refine (((insertStr_perm x acc).append_right xs).trans ?_)
    exact List.perm_middle.symm

lemma sortStrings_perm (l : List String) : (sortStrings l).Perm l := by
  have h := sortStrings_perm_aux l []
  simpa [sortStrings] using h

lemma foldFd_nodup (ctx : Ctx) (tset : List String) (fuel : Nat) :
    ∀ (systems imp : List String), imp.Nodup →
      (systems.foldl (fun imp s => findDownstream ctx tset fuel s imp) imp).Nodup := by
  intro systems
  induction systems with
  | nil => intro imp h; simpa using h
  | cons s rest ih =>
    intro imp himp
    simp only [List.foldl]
    exact ih _ (findDownstream_nodup ctx tset fuel s imp himp)

lemma foldFd_subset (ctx : Ctx) (tset : List String) (fuel : Nat) :
    ∀ (systems imp : List String) (x : String),
      x ∈ systems.foldl (fun imp s => findDownstream ctx tset fuel s imp) imp →
      x ∈ imp ∨ x ∈ edgeUniverse ctx ∨
        x ∈ ctx.serviceDeps.map (fun si => normalizeServiceName ctx si.serviceName) := by
  intro systems
  induction systems with
  | nil => intro imp x hx; left; simpa using hx
  | cons s rest ih =>
    intro imp x hx
    simp only [List.foldl] at hx
    rcases ih _ x hx with hmem | hmem | hmem
    · exact findDownstream_subset ctx tset fuel s imp x hmem
    · exact Or.inr (Or.inl hmem)
    · exact Or.inr (Or.inr hmem)

lemma nodup_length_le {l w : List String} (hnd : l.Nodup) (hsub : ∀ x ∈ l, x ∈ w) :
    l.length ≤ w.length := by
  calc l.length = l.toFinset.card := (List.toFinset_card_of_nodup hnd).symm
    _ ≤ w.toFinset.card := Finset.card_le_card
        (fun a ha => List.mem_toFinset.mpr (hsub a (List.mem_toFinset.mp ha)))
    _ ≤ w.length := List.toFinset_card_le w

/-- C7 (amended): the dependency analysis terminates on every finite
graph, cyclic ones included — formally, the fuel-indexed recursion is
stable at fuel `(edgeUniverse ctx).length + 1` — and its impacted set
holds no duplicates and is bounded in size by the total number of
forward-edge targets plus service-metadata entries.  (It is not in general
bounded by the number of services: edges may name targets that are not
services, see the counterexample.) -/
theorem C7_termination (ctx : Ctx) (targets : List String) (fuel : Nat)
    (h : (edgeUniverse ctx).length + 1 ≤ fuel) :
    analyzeServiceDependenciesFuel ctx targets fuel = analyzeServiceDependencies ctx targets ∧
    (analyzeServiceDependencies ctx targets).impacted_dependencies.Nodup ∧
    (analyzeServiceDependencies ctx targets).impacted_dependencies.length ≤
      (ctx.graph.map Prod.snd).flatten.length + ctx.serviceDeps.length := by
  refine ⟨findDownstream_fuel ctx targets fuel h, ?_, ?_⟩
  all_goals
    have hfield : (analyzeServiceDependencies ctx targets).impacted_dependencies =
      sortStrings ((((targets.filter (fun s => s ≠ "")).map
          (normalizeServiceName ctx)).foldl
        (fun imp s => findDownstream ctx
          ((targets.filter (fun s => s ≠ "")).map (normalizeServiceName ctx))
          ((edgeUniverse ctx).length + 1) s imp) []).filter
        (fun s => s ∉ (targets.filter (fun s => s ≠ "")).map (normalizeServiceName ctx))) :=
      rfl
  · rw [hfield]
    rw [List.Perm.nodup_iff (sortStrings_perm _)]
    exact List.Nodup.filter _
      (foldFd_nodup ctx _ _ _ [] List.nodup_nil)
  · rw [hfield]
    rw [List.Perm.length_eq (sortStrings_perm _)]
    have hU : (edgeUniverse ctx).length ≤ ((ctx.graph.map Prod.snd).flatten).length := by
      calc (edgeUniverse ctx).length
          ≤ (((ctx.graph.map Prod.snd).flatten).map (normalizeServiceName ctx)).length :=
            (List.dedup_sublist _).length_le
        _ = ((ctx.graph.map Prod.snd).flatten).length := List.length_map _ _
    have hbound : (((targets.filter (fun s => s ≠ "")).map
          (normalizeServiceName ctx)).foldl
        (fun imp s => findDownstream ctx
          ((targets.filter (fun s => s ≠ "")).map (normalizeServiceName ctx))
          ((edgeUniverse ctx).length + 1) s imp) []).length ≤
        (edgeUniverse ctx).length + ctx.serviceDeps.length := by
      have := nodup_length_le (l := ((targets.filter (fun s => s ≠ "")).map
            (normalizeServiceName ctx)).foldl
          (fun imp s => findDownstream ctx
            ((targets.filter (fun s => s ≠ "")).map (normalizeServiceName ctx))
            ((edgeUniverse ctx).length + 1) s imp) [])
        (w := edgeUniverse ctx ++
          ctx.serviceDeps.map (fun si => normalizeServiceName ctx si.serviceName))
        (foldFd_nodup ctx _ _ _ [] List.nodup_nil)
        (fun x hx => by
          rcases foldFd_subset ctx _ _ _ [] x hx with hmem | hmem | hmem
          · exact absurd hmem (by simp)
          · exact List.mem_append_left _ hmem
          · exact List.mem_append_right _ hmem)
      calc _ ≤ (edgeUniverse ctx ++
            ctx.serviceDeps.map (fun si => normalizeServiceName ctx si.serviceName)).length :=
          this
        _ = (edgeUniverse ctx).length + ctx.serviceDeps.length := by
          rw [List.length_append, List.length_map]
    calc (List.filter _ _).length
        ≤ _ := List.length_filter_le _ _
      _ ≤ (edgeUniverse ctx).length + ctx.serviceDeps.length := hbound
      _ ≤ ((ctx.graph.map Prod.snd).flatten).length + ctx.serviceDeps.length := by omega

/-- C7 witness: the one-service / three-dangling-edges context with extra
fuel. -/
theorem C7_termination_witness :
    analyzeServiceDependenciesFuel ctxC7 ["a"] 10 = analyzeServiceDependencies ctxC7 ["a"] ∧
    (analyzeServiceDependencies ctxC7 ["a"]).impacted_dependencies.Nodup ∧
    (analyzeServiceDependencies ctxC7 ["a"]).impacted_dependencies.length ≤
      (ctxC7.graph.map Prod.snd).flatten.length + ctxC7.serviceDeps.length :=
  C7_termination ctxC7 ["a"] 10 (by decide)

/-- C7 counterexample to the claimed size bound: one service whose three
forward edges name unknown systems yields an impacted set of size 3,
exceeding the total service count of 1. -/
theorem C7_counterexample :
    (analyzeServiceDependencies ctxC7 ["a"]).impacted_dependencies.length = 3 ∧
    ctxC7.serviceDeps.length = 1 ∧ ctxC7.graph.length = 1 ∧ ¬ ((3 : Nat) ≤ 1) := by
  exact ⟨by decide, by decide, by decide, by decide⟩

end GuardianOps
